import Mathlib

/-!
Verification development for `numpy/core/src/multiarray/array_assign_array.c`:
broadcasting, overlap-safe, type-casting assignment between strided arrays,
optionally filtered by a boolean where-mask and an NA mask.

The embedding models byte-addressed memory as `Int → Nat`, array extents as
`List Nat`, byte strides as `List Int`, and the external cast/transfer
callables through their consumed contract (an abstract per-element cast
function applied at each selected position, in iteration order).

External collaborators that are declared but not defined in the sources at
hand (`PyArray_PrepareTwoRawArrayIter` and friends, the `NPY_RAW_ITER_*`
macros, `broadcast_strides`, `PyArray_ContainsNA`, the transfer-function
resolver) are modelled from the specification; each such definition carries a
doc comment starting with `Modelled from the spec:`.
-/

/-- Byte-addressed memory: each `Int` address holds one byte value. -/
def Mem : Type := Int → Nat

/-- Write one element of `es` bytes at base address `a`; byte `k` of the
element receives `v k`. -/
def writeElem (m : Mem) (a : Int) (es : Nat) (v : Nat → Nat) : Mem :=
  fun p => if a ≤ p ∧ p < a + es then v (p - a).toNat else m p

/-- Read the bytes of one element located at base address `a`. -/
def readElem (m : Mem) (a : Int) : Nat → Nat :=
  fun k => m (a + k)

/-- Truth of an `npy_mask` / boolean mask byte: the exposed bit is bit 0. -/
def maskTrue (v : Nat) : Bool := v % 2 = 1

/-- A cast function, the per-element behaviour of an external strided transfer
callable: maps the bytes of one source element to the bytes of one
destination element. -/
def CastFn : Type := (Nat → Nat) → Nat → Nat

/-- Byte offset of a multi-index under a stride vector. -/
def offsetOf (strides : List Int) (idx : List Nat) : Int :=
  ((strides.zip idx).map fun si => si.1 * (si.2 : Int)).sum

/-- All multi-indices of a shape (outer iteration space of the raw loops). -/
def coords : List Nat → List (List Nat)
  | [] => [[]]
  | n :: rest => (List.range n).flatMap fun i => (coords rest).map (i :: ·)

/-- Membership of `p` in the `es`-byte region of the element based at `a`. -/
def regionMem (a : Int) (es : Nat) (p : Int) : Prop := a ≤ p ∧ p < a + es

instance (a : Int) (es : Nat) (p : Int) : Decidable (regionMem a es p) := by
  unfold regionMem; infer_instance

/-- Modelled from the spec: the unmasked strided transfer callable returned by
`PyArray_GetDTypeTransferFunction` (dtype_transfer.c, not under `src/`)
"casting-and-copying a contiguous run of elements": it processes the `n`
elements in order, reading the source element then writing the cast value to
the destination element. -/
def stransfer (f : CastFn) (es : Nat) (m : Mem)
    (dP : Int) (ds : Int) (sP : Int) (ss : Int) (n : Nat) : Mem :=
  (List.range n).foldl
    (fun mem (k : Nat) =>
      writeElem mem (dP + (k : Int) * ds) es (f (readElem mem (sP + (k : Int) * ss)))) m

/-- One step of a masked transfer: an item is a triple of destination, source
and mask byte addresses; the write happens only if the mask byte is true. -/
def maskedWriteStep (f : CastFn) (es : Nat) (m : Mem) (it : Int × Int × Int) : Mem :=
  if maskTrue (m it.2.2) then writeElem m it.1 es (f (readElem m it.2.1)) else m

/-- Masked transfer over an explicit list of (dst, src, mask) address items,
processed in order. -/
def maskedTransferList (f : CastFn) (es : Nat) (items : List (Int × Int × Int)) (m : Mem) : Mem :=
  items.foldl (maskedWriteStep f es) m

/-- Modelled from the spec: the masked strided transfer callable returned by
`PyArray_GetMaskedDTypeTransferFunction` (dtype_transfer.c, not under
`src/`): elements whose mask value is false "are left untouched in the
destination"; the others are cast-and-copied in order. -/
def stransferMasked (f : CastFn) (es : Nat) (m : Mem)
    (dP : Int) (ds : Int) (sP : Int) (ss : Int) (wP : Int) (ws : Int) (n : Nat) : Mem :=
  maskedTransferList f es
    ((List.range n).map fun (k : Nat) =>
      (dP + (k : Int) * ds, sP + (k : Int) * ss, wP + (k : Int) * ws)) m

/-- Innermost strides as seen by the transfer-function resolver and by the
transfer loop of one raw routine. -/
structure RawObs where
  resolverSrcStride : Int
  resolverDstStride : Int
  resolverMaskStride : Option Int
  loopSrcStride : Int
  loopDstStride : Int
  loopMaskStride : Option Int
  deriving DecidableEq, Repr, Inhabited

/-- Embedding of `raw_array_assign_array` (array_assign_array.c:35-111).
`PyArray_PrepareTwoRawArrayIter` — modelled from the spec: a
semantics-preserving normalization of the co-iterated dimensions (shape.c
family, not under `src/`) — is taken as the identity normalization, so the
prepared shape and strides equal the inputs.  The function then performs the
1-D forward-overlap reversal (lines 74-80: when `src_data < dst_data` and
`src_data + shape*stride > dst_data`, both start pointers move to the last
element and both innermost strides are negated), resolves the transfer
function with the post-reversal innermost strides (lines 83-88), and runs the
transfer over every innermost run (`NPY_RAW_ITER_START` loop, modelled as the
fold over all outer coordinates). -/
def raw_array_assign_array (f : CastFn) (es : Nat) (shape : List Nat)
    (dP : Int) (dstS : List Int) (sP : Int) (srcS : List Int) (m : Mem) : Mem × RawObs :=
  match shape, dstS, srcS with
  | n :: oshape, ds :: ods, ss :: oss =>
    let rev : Bool := oshape.isEmpty && decide (sP < dP) && decide (dP < sP + (n : Int) * ss)
    let dP1 := if rev then dP + ((n : Int) - 1) * ds else dP
    let sP1 := if rev then sP + ((n : Int) - 1) * ss else sP
    let ds1 := if rev then -ds else ds
    let ss1 := if rev then -ss else ss
    let obs : RawObs := ⟨ss1, ds1, none, ss1, ds1, none⟩
    let mem := (coords oshape).foldl
      (fun mem c => stransfer f es mem (dP1 + offsetOf ods c) ds1 (sP1 + offsetOf oss c) ss1 n) m
    (mem, obs)
  | _, _, _ => (m, default)

/-- Identity cast: source bytes are copied unchanged (same-dtype transfer). -/
def idCast : CastFn := fun b => b

/-- Concrete memory for the overlap counterexample: bytes `0..9` hold their
own address value. -/
def memC1 : Mem := fun p => if 0 ≤ p ∧ p < 10 then p.toNat else 0

/-- Embedding of `raw_array_wheremasked_assign_array`
(array_assign_array.c:119-206), with `PyArray_PrepareThreeRawArrayIter`
modelled from the spec as the identity normalization.  The 1-D
forward-overlap reversal (lines 163-171) also advances and negates the
where-mask pointer and stride; the masked transfer function is resolved with
the post-reversal innermost strides (lines 174-181), and the masked transfer
runs once per innermost run (lines 189-197). -/
def raw_array_wheremasked_assign_array (f : CastFn) (es : Nat) (shape : List Nat)
    (dP : Int) (dstS : List Int) (sP : Int) (srcS : List Int)
    (wP : Int) (wmS : List Int) (m : Mem) : Mem × RawObs :=
  match shape, dstS, srcS, wmS with
  | n :: oshape, ds :: ods, ss :: oss, ws :: ows =>
    let rev : Bool := oshape.isEmpty && decide (sP < dP) && decide (dP < sP + (n : Int) * ss)
    let dP1 := if rev then dP + ((n : Int) - 1) * ds else dP
    let sP1 := if rev then sP + ((n : Int) - 1) * ss else sP
    let wP1 := if rev then wP + ((n : Int) - 1) * ws else wP
    let ds1 := if rev then -ds else ds
    let ss1 := if rev then -ss else ss
    let ws1 := if rev then -ws else ws
    let obs : RawObs := ⟨ss1, ds1, some ws1, ss1, ds1, some ws1⟩
    let mem := (coords oshape).foldl
      (fun mem c => stransferMasked f es mem (dP1 + offsetOf ods c) ds1
        (sP1 + offsetOf oss c) ss1 (wP1 + offsetOf ows c) ws1 n) m
    (mem, obs)
  | _, _, _, _ => (m, default)

/-- Modelled from the spec: `NPY_ARRAY_ASSIGN_BUFFERSIZE` (array_assign.h, not
under `src/`), the fixed capacity of the bounded mask-combination scratch
buffer ("sized to a fixed constant, e.g. on the order of tens of KB"). -/
def NPY_ARRAY_ASSIGN_BUFFERSIZE : Nat := 8192

/-- One call made by the chunked innermost loop of the preserve-NA routine:
either the mask-combination step filling the scratch buffer, or the masked
transfer step consuming it. -/
inductive PNEvent where
  | maskand (cnt : Nat) (manP wmP : Int)
  | transfer (cnt : Nat) (dstP srcP : Int)
  deriving DecidableEq, Repr

/-- Embedding of the innermost chunked do-while loop of
`raw_array_wheremasked_assign_array_preservena` (array_assign_array.c:
319-349): each iteration takes `buffered_count = min(count, BUFFERSIZE)`,
materializes the combined mask for that chunk into the scratch buffer
(`maskand_stransfer`), transfers the chunk under the buffered mask
(`stransfer`), then advances the four data pointers by
`buffered_count * stride` and subtracts `buffered_count` from `count`. -/
def preservenaInnerEvents (n : Nat) (dP sP mP wP : Int) (ds ss ms ws : Int) : List PNEvent :=
  let b := min n NPY_ARRAY_ASSIGN_BUFFERSIZE
  [.maskand b mP wP, .transfer b dP sP] ++
    (if 0 < n - b then
      preservenaInnerEvents (n - b) (dP + (b : Int) * ds) (sP + (b : Int) * ss)
        (mP + (b : Int) * ms) (wP + (b : Int) * ws) ds ss ms ws
    else [])
  termination_by n
  decreasing_by simp only [NPY_ARRAY_ASSIGN_BUFFERSIZE] at *; omega

/-- Number of chunks the do-while loop performs for an innermost run of `n`
elements (it always performs at least one iteration). -/
def numChunks (n : Nat) : Nat :=
  let b := min n NPY_ARRAY_ASSIGN_BUFFERSIZE
  1 + (if 0 < n - b then numChunks (n - b) else 0)
  termination_by n
  decreasing_by simp only [NPY_ARRAY_ASSIGN_BUFFERSIZE] at *; omega

/-- Embedding of `raw_array_wheremasked_assign_array_preservena`
(array_assign_array.c:215-365), recording the innermost strides handed to the
transfer-function resolver and used by the transfer loop, and the chunked
calls of every innermost run.  `PyArray_PrepareFourRawArrayIter` is modelled
from the spec as the identity normalization.  After the 1-D forward-overlap
reversal (lines 279-289), the masked transfer function is resolved at lines
292-297 with `src_strides[0]` — the function parameter, i.e. the
pre-reversal innermost source stride — together with `dst_strides_it[0]` and
`maskna_itemsize`, while the transfer loop at lines 340-342 uses
`src_strides_it[0]`, `dst_strides_it[0]` and `maskna_itemsize` (the scratch
buffer is contiguous). -/
def raw_array_wheremasked_assign_array_preservena (shape : List Nat)
    (dP : Int) (dstS : List Int) (sP : Int) (srcS : List Int)
    (mP : Int) (manS : List Int) (wP : Int) (wmS : List Int)
    (maskna_itemsize : Nat) : RawObs × List PNEvent :=
  match shape, dstS, srcS, manS, wmS with
  | n :: oshape, ds :: ods, ss :: oss, ms :: oms, ws :: ows =>
    let rev : Bool := oshape.isEmpty && decide (sP < dP) && decide (dP < sP + (n : Int) * ss)
    let dP1 := if rev then dP + ((n : Int) - 1) * ds else dP
    let sP1 := if rev then sP + ((n : Int) - 1) * ss else sP
    let mP1 := if rev then mP + ((n : Int) - 1) * ms else mP
    let wP1 := if rev then wP + ((n : Int) - 1) * ws else wP
    let ds1 := if rev then -ds else ds
    let ss1 := if rev then -ss else ss
    let ms1 := if rev then -ms else ms
    let ws1 := if rev then -ws else ws
    let obs : RawObs :=
      ⟨ss, ds1, some (maskna_itemsize : Int), ss1, ds1, some (maskna_itemsize : Int)⟩
    let evs := (coords oshape).flatMap fun c =>
      preservenaInnerEvents n (dP1 + offsetOf ods c) (sP1 + offsetOf oss c)
        (mP1 + offsetOf oms c) (wP1 + offsetOf ows c) ds1 ss1 ms1 ws1
    (obs, evs)
  | _, _, _, _, _ => (default, [])

/-- Concrete memory for the where-mask selectivity witness: a false mask byte
at 30, a true one at 31, source bytes 7/9 at 20/21, destination bytes 3/4 at
10/11. -/
def memC5 : Mem := fun p =>
  if p = 30 then 0 else if p = 31 then 1 else
  if p = 20 then 7 else if p = 21 then 9 else
  if p = 10 then 3 else if p = 11 then 4 else 0

/-- The two calls of chunk `k` of an innermost run of `n` elements: the mask
combination into the scratch buffer, then the masked transfer, both over
`min (n - BUFFERSIZE*k) BUFFERSIZE` elements, with all pointers advanced by
`BUFFERSIZE*k` times their innermost strides. -/
def chunkCalls (n : Nat) (dP sP mP wP ds ss ms ws : Int) (k : Nat) : List PNEvent :=
  [PNEvent.maskand (min (n - NPY_ARRAY_ASSIGN_BUFFERSIZE * k) NPY_ARRAY_ASSIGN_BUFFERSIZE)
      (mP + ((NPY_ARRAY_ASSIGN_BUFFERSIZE * k : Nat) : Int) * ms)
      (wP + ((NPY_ARRAY_ASSIGN_BUFFERSIZE * k : Nat) : Int) * ws),
   PNEvent.transfer (min (n - NPY_ARRAY_ASSIGN_BUFFERSIZE * k) NPY_ARRAY_ASSIGN_BUFFERSIZE)
      (dP + ((NPY_ARRAY_ASSIGN_BUFFERSIZE * k : Nat) : Int) * ds)
      (sP + ((NPY_ARRAY_ASSIGN_BUFFERSIZE * k : Nat) : Int) * ss)]

/-- Pointwise broadcast of the right-aligned dimensions: a size-1 source
dimension yields stride 0, a matching dimension keeps its stride, any other
extent is a shape mismatch. -/
def bcastZip : List Nat → List Nat → List Int → Option (List Int)
  | [], [], [] => some []
  | d :: ds, s :: ss, t :: ts =>
      if s = 1 then (bcastZip ds ss ts).map (0 :: ·)
      else if s = d then (bcastZip ds ss ts).map (t :: ·)
      else none
  | _, _, _ => none

/-- Modelled from the spec: `broadcast_strides` (shape.c, not under `src/`):
"given a target shape of n dimensions and a source view of m ≤ n dimensions,
produce an n-length stride vector ... size-1 dimensions get stride 0;
dimensions absent on the left are treated as size 1/stride 0", failing with a
ShapeMismatch error (here `none`) "when a non-1 extent does not equal the
corresponding target extent". -/
def broadcast_strides (dstShape srcShape : List Nat) (srcStrides : List Int) : Option (List Int) :=
  if srcShape.length ≤ dstShape.length then
    (bcastZip (dstShape.drop (dstShape.length - srcShape.length)) srcShape srcStrides).map
      (fun z => List.replicate (dstShape.length - srcShape.length) 0 ++ z)
  else none

/-- Embedding of the leading-unit-dimension strip loop of `PyArray_AssignArray`
(array_assign_array.c:547-551): while the source still has more dimensions
than the destination and its leading extent is 1, drop that dimension and its
stride. -/
def stripLeadingOnes (dstNdim : Nat) : List Nat → List Int → List Nat × List Int
  | s :: ss, t :: ts =>
      if dstNdim < ss.length + 1 ∧ s = 1 then stripLeadingOnes dstNdim ss ts
      else (s :: ss, t :: ts)
  | ss, ts => (ss, ts)

/-- Embedding of the source-broadcast step of `PyArray_AssignArray`
(array_assign_array.c:538-567): when the source has more dimensions than the
destination, leading unit dimensions are stripped first; then
`broadcast_strides` aligns the source to the destination shape. -/
def broadcastSrcToDst (dstShape srcShape : List Nat) (srcStrides : List Int) : Option (List Int) :=
  if dstShape.length < srcShape.length then
    let st := stripLeadingOnes dstShape.length srcShape srcStrides
    broadcast_strides dstShape st.1 st.2
  else broadcast_strides dstShape srcShape srcStrides

/-- The source multi-index that NumPy-style broadcasting associates to a
destination multi-index: drop the leading destination coordinates, and clamp
to 0 every coordinate of a size-1 source dimension. -/
def srcIndex (srcShape : List Nat) (idx : List Nat) : List Nat :=
  (srcShape.zip (idx.drop (idx.length - srcShape.length))).map fun si =>
    if si.1 = 1 then 0 else si.2

/-- The source shape/strides actually handed to `broadcast_strides` by
`PyArray_AssignArray`: stripped when the source has more dimensions than the
destination, unchanged otherwise. -/
def effectiveSrc (dstShape srcShape : List Nat) (srcStrides : List Int) : List Nat × List Int :=
  if dstShape.length < srcShape.length then stripLeadingOnes dstShape.length srcShape srcStrides
  else (srcShape, srcStrides)

/-- Casting rule enumeration (`NPY_CASTING`); `force_cast` stands for the
unrestricted rule `NPY_UNSAFE_CASTING`. -/
inductive NpyCasting where
  | no_cast
  | equiv_cast
  | safe_cast
  | same_kind_cast
  | force_cast
  deriving DecidableEq, Repr

/-- An array view: extents, byte strides, data pointer, dtype identity (an
opaque tag compared by identity, as the code compares `PyArray_DESCR`
pointers), writeability flag, and the optional NA mask (pointer 0 models the
NULL mask pointer of a maskless array). -/
structure ArrayView where
  dims : List Nat
  strides : List Int
  data : Int
  descr : Nat
  writeable : Bool
  has_maskna : Bool
  maskna_data : Int
  maskna_strides : List Int
  maskna_descr : Nat
  deriving DecidableEq, Repr

/-- Number of dimensions of a view (`PyArray_NDIM`). -/
def ArrayView.ndim (a : ArrayView) : Nat := a.dims.length

/-- The (descr, data, strides) triple handed to one raw routine for one
participating array. -/
structure RawArgs where
  descr : Nat
  data : Int
  strides : List Int
  deriving DecidableEq, Repr

/-- Observable actions of `PyArray_AssignArray`, in program order: delegations,
NA scans, temporary-copy management, and the raw-routine invocations with
their exact arguments. -/
inductive AssignEvent where
  | naDelegate
  | scalarDelegate
  | naScan (wheremask : Option ArrayView)
  | whereMaskNaScan
  | tempAlloc (tmp : ArrayView)
  | tempMaskAlloc (data : Int)
  | recursiveAssign (dst src : ArrayView) (wheremask : Option ArrayView)
      (casting : NpyCasting) (preservena : Bool) (preservewhichna : Option (List Bool))
  | tempRelease (data : Int)
  | assignMaskNA (dst : ArrayView) (wheremask : Option ArrayView)
  | rawAssign (shape : List Nat) (dst src : RawArgs)
  | rawWhereAssign (shape : List Nat) (dst src wheremask : RawArgs)
  | rawWherePreserve (shape : List Nat) (dst src maskna wheremask : RawArgs)
  deriving DecidableEq, Repr

/-- Failure kinds of `PyArray_AssignArray`; `badCast` is the spec's
`UnsafeCast` error. -/
inductive AssignError where
  | readOnlyTarget
  | badCast
  | notImplementedMultiNA
  | unsupportedNA
  | whereMaskNA
  | shapeMismatch
  | allocFail
  | containsNAFail
  | recursiveCopyFail
  | maskAssignFail
  | transferFail
  | delegateFail
  deriving DecidableEq, Repr

/-- Outcomes of the external collaborators consumed by the orchestrator:
the casting predicate, the memory-overlap test, the NA scan, the 0-d NA
conversion, the temporary allocation, and the success of each delegated or
raw transfer (whose own semantics are modelled separately at the raw level). -/
structure Env where
  canCast : Nat → Nat → NpyCasting → Bool
  arraysOverlap : ArrayView → ArrayView → Bool
  containsNA : ArrayView → Option ArrayView → Option Bool
  naFromObject : ArrayView → Bool
  assignNAOk : Bool
  assignRawScalarOk : Bool
  newLike : ArrayView → Option ArrayView
  allocMaskNAOk : Bool
  recursiveAssignOk : Bool
  assignMaskNAOk : Bool
  rawAssignOk : Bool
  rawWhereOk : Bool
  rawWherePreserveOk : Bool

instance {eps alpha : Type} [DecidableEq eps] [DecidableEq alpha] :
    DecidableEq (Except eps alpha) := fun x y =>
  match x, y with
  | .ok a, .ok b =>
      if h : a = b then isTrue (by rw [h]) else isFalse (fun hc => h (by cases hc; rfl))
  | .error e, .error e2 =>
      if h : e = e2 then isTrue (by rw [h]) else isFalse (fun hc => h (by cases hc; rfl))
  | .ok _, .error _ => isFalse (fun hc => by cases hc)
  | .error _, .ok _ => isFalse (fun hc => by cases hc)

/-- Result of one `PyArray_AssignArray` call: the return status, the event
trace, and the source view used for broadcasting and dispatch (the temporary
when one was substituted). -/
structure AssignOutcome where
  ret : Except AssignError Unit
  events : List AssignEvent
  usedSrc : Option ArrayView
  deriving DecidableEq, Repr

/-- Modelled from the spec: `PyArray_ContainsNA` (na_mask.c, not under
`src/`): "scan source (restricted by where-mask) for any NA element" — an
element is NA when its NA-mask byte is not exposed; when a where-mask is
given, only positions whose where-mask byte is true are considered.  An array
without NA mask contains no NA. -/
def modelContainsNA (mem : Mem) (arr : ArrayView) (wheremask : Option ArrayView) : Option Bool :=
  if arr.has_maskna then
    some ((coords arr.dims).any fun idx =>
      (!maskTrue (mem (arr.maskna_data + offsetOf arr.maskna_strides idx))) &&
      (match wheremask with
       | none => true
       | some w => maskTrue (mem (w.data + offsetOf w.strides idx))))
  else some false

/-- The redundant-self-assignment test of `PyArray_AssignArray`
(array_assign_array.c:438-447): identical data pointer, NA-mask pointer,
dtype identity, rank, extents and strides. -/
def identityTest (dst src : ArrayView) : Bool :=
  decide (src.data = dst.data) && decide (src.maskna_data = dst.maskna_data) &&
  decide (src.descr = dst.descr) && decide (src.ndim = dst.ndim) &&
  decide (src.dims = dst.dims) && decide (src.strides = dst.strides)

/-- Broadcasting and dispatch stage of `PyArray_AssignArray`
(array_assign_array.c:538-798), entered after overlap resolution: broadcast
the source (with left-strip) and its NA mask, then dispatch on
{where-mask present} × {preserve-NA} × {destination has NA mask} × {source
NA-mask flag} to the raw routines, whose invocations are recorded as events
and whose success is taken from the environment.  Note the faithful oddities:
the where-mask NA scan at line 663, and the use of the unbroadcast
`PyArray_STRIDES(src)` for the value assignment in the two preserve-NA
branches (lines 654 and 790). -/
def assignResolved (env : Env) (dst src : ArrayView) (srcHasMaskna : Bool)
    (wheremask : Option ArrayView) (preservena : Bool) :
    Except AssignError Unit × List AssignEvent :=
  match broadcastSrcToDst dst.dims src.dims src.strides with
  | none => (.error .shapeMismatch, [])
  | some src_strides =>
    match (if srcHasMaskna then broadcast_strides dst.dims src.dims src.maskna_strides
           else some []) with
    | none => (.error .shapeMismatch, [])
    | some src_maskna_strides =>
      match wheremask with
      | none =>
        if ¬ preservena ∨ ¬ dst.has_maskna then
          if dst.has_maskna then
            if srcHasMaskna then
              let e1 := AssignEvent.rawAssign dst.dims
                ⟨dst.maskna_descr, dst.maskna_data, dst.maskna_strides⟩
                ⟨src.maskna_descr, src.maskna_data, src_maskna_strides⟩
              if env.rawAssignOk then
                let e2 := AssignEvent.rawWhereAssign dst.dims
                  ⟨dst.descr, dst.data, dst.strides⟩
                  ⟨src.descr, src.data, src_strides⟩
                  ⟨src.maskna_descr, src.maskna_data, src_maskna_strides⟩
                if env.rawWhereOk then (.ok (), [e1, e2])
                else (.error .transferFail, [e1, e2])
              else (.error .transferFail, [e1])
            else
              let e1 := AssignEvent.assignMaskNA dst none
              if env.assignMaskNAOk then
                let e2 := AssignEvent.rawAssign dst.dims
                  ⟨dst.descr, dst.data, dst.strides⟩ ⟨src.descr, src.data, src_strides⟩
                if env.rawAssignOk then (.ok (), [e1, e2])
                else (.error .transferFail, [e1, e2])
              else (.error .maskAssignFail, [e1])
          else
            let e1 := AssignEvent.rawAssign dst.dims
              ⟨dst.descr, dst.data, dst.strides⟩ ⟨src.descr, src.data, src_strides⟩
            if env.rawAssignOk then (.ok (), [e1]) else (.error .transferFail, [e1])
        else
          let step1 : Except AssignError Unit × List AssignEvent :=
            if srcHasMaskna then
              let e := AssignEvent.rawWhereAssign dst.dims
                ⟨dst.maskna_descr, dst.maskna_data, dst.maskna_strides⟩
                ⟨src.maskna_descr, src.maskna_data, src_maskna_strides⟩
                ⟨dst.maskna_descr, dst.maskna_data, dst.maskna_strides⟩
              if env.rawWhereOk then (.ok (), [e]) else (.error .transferFail, [e])
            else (.ok (), [])
          match step1 with
          | (.error er, evs) => (.error er, evs)
          | (.ok _, evs) =>
            let e2 := AssignEvent.rawWhereAssign dst.dims
              ⟨dst.descr, dst.data, dst.strides⟩
              ⟨src.descr, src.data, src.strides⟩
              ⟨dst.maskna_descr, dst.maskna_data, dst.maskna_strides⟩
            if env.rawWhereOk then (.ok (), evs ++ [e2])
            else (.error .transferFail, evs ++ [e2])
      | some wm =>
        match env.containsNA wm none with
        | none => (.error .containsNAFail, [.whereMaskNaScan])
        | some true =>
          if ¬ dst.has_maskna then (.error .unsupportedNA, [.whereMaskNaScan])
          else (.error .whereMaskNA, [.whereMaskNaScan])
        | some false =>
          match broadcast_strides dst.dims wm.dims wm.strides with
          | none => (.error .shapeMismatch, [.whereMaskNaScan])
          | some wheremask_strides =>
            if ¬ preservena ∨ ¬ dst.has_maskna then
              if dst.has_maskna then
                if srcHasMaskna then
                  let e1 := AssignEvent.rawWhereAssign dst.dims
                    ⟨dst.maskna_descr, dst.maskna_data, dst.maskna_strides⟩
                    ⟨src.maskna_descr, src.maskna_data, src_maskna_strides⟩
                    ⟨wm.descr, wm.data, wheremask_strides⟩
                  if env.rawWhereOk then
                    let e2 := AssignEvent.rawWherePreserve dst.dims
                      ⟨dst.descr, dst.data, dst.strides⟩
                      ⟨src.descr, src.data, src_strides⟩
                      ⟨src.maskna_descr, src.maskna_data, src_maskna_strides⟩
                      ⟨wm.descr, wm.data, wheremask_strides⟩
                    if env.rawWherePreserveOk then (.ok (), [.whereMaskNaScan, e1, e2])
                    else (.error .transferFail, [.whereMaskNaScan, e1, e2])
                  else (.error .transferFail, [.whereMaskNaScan, e1])
                else
                  let e1 := AssignEvent.assignMaskNA dst (some wm)
                  if env.assignMaskNAOk then
                    let e2 := AssignEvent.rawWhereAssign dst.dims
                      ⟨dst.descr, dst.data, dst.strides⟩
                      ⟨src.descr, src.data, src_strides⟩
                      ⟨wm.descr, wm.data, wheremask_strides⟩
                    if env.rawWhereOk then (.ok (), [.whereMaskNaScan, e1, e2])
                    else (.error .transferFail, [.whereMaskNaScan, e1, e2])
                  else (.error .maskAssignFail, [.whereMaskNaScan, e1])
              else
                let e1 := AssignEvent.rawWhereAssign dst.dims
                  ⟨dst.descr, dst.data, dst.strides⟩
                  ⟨src.descr, src.data, src_strides⟩
                  ⟨wm.descr, wm.data, wheremask_strides⟩
                if env.rawWhereOk then (.ok (), [.whereMaskNaScan, e1])
                else (.error .transferFail, [.whereMaskNaScan, e1])
            else
              let step1 : Except AssignError Unit × List AssignEvent :=
                if srcHasMaskna then
                  let e := AssignEvent.rawWherePreserve dst.dims
                    ⟨dst.maskna_descr, dst.maskna_data, dst.maskna_strides⟩
                    ⟨src.maskna_descr, src.maskna_data, src_maskna_strides⟩
                    ⟨dst.maskna_descr, dst.maskna_data, dst.maskna_strides⟩
                    ⟨wm.descr, wm.data, wheremask_strides⟩
                  if env.rawWherePreserveOk then (.ok (), [.whereMaskNaScan, e])
                  else (.error .transferFail, [.whereMaskNaScan, e])
                else (.ok (), [.whereMaskNaScan])
              match step1 with
              | (.error er, evs) => (.error er, evs)
              | (.ok _, evs) =>
                let e2 := AssignEvent.rawWherePreserve dst.dims
                  ⟨dst.descr, dst.data, dst.strides⟩
                  ⟨src.descr, src.data, src.strides⟩
                  ⟨dst.maskna_descr, dst.maskna_data, dst.maskna_strides⟩
                  ⟨wm.descr, wm.data, wheremask_strides⟩
                if env.rawWherePreserveOk then (.ok (), evs ++ [e2])
                else (.error .transferFail, evs ++ [e2])

/-- Embedding of `PyArray_AssignArray` (array_assign_array.c:387-811).  In
order: 0-d source delegation (lines 399-417), the redundant-self-assignment
short-circuit (438-450), the writeability check (452-457), the casting-rule
check (459-475), the `preservewhichna` rejection (477-481), the NA scan when
the source carries an NA mask but the destination does not (483-497, note the
call passes the where-mask), overlap resolution with a temporary copy of the
source (499-536, with `Py_DECREF(tmp)` on the inline failure paths and the
common finish/fail epilogue releasing the substituted temporary), then
broadcasting and dispatch (`assignResolved`). -/
def PyArray_AssignArray (env : Env) (dst src : ArrayView) (wheremask : Option ArrayView)
    (casting : NpyCasting) (preservena : Bool) (preservewhichna : Option (List Bool)) :
    AssignOutcome :=
  if src.ndim = 0 then
    if src.has_maskna ∧ env.naFromObject src then
      { ret := if env.assignNAOk then .ok () else .error .delegateFail,
        events := [.naDelegate], usedSrc := none }
    else
      { ret := if env.assignRawScalarOk then .ok () else .error .delegateFail,
        events := [.scalarDelegate], usedSrc := none }
  else if identityTest dst src then
    { ret := .ok (), events := [], usedSrc := none }
  else if ¬ dst.writeable then
    { ret := .error .readOnlyTarget, events := [], usedSrc := none }
  else if ¬ env.canCast src.descr dst.descr casting then
    { ret := .error .badCast, events := [], usedSrc := none }
  else if preservewhichna.isSome then
    { ret := .error .notImplementedMultiNA, events := [], usedSrc := none }
  else
    let scan : Except AssignError Bool × List AssignEvent :=
      if src.has_maskna ∧ ¬ dst.has_maskna then
        match env.containsNA src wheremask with
        | none => (.error .containsNAFail, [.naScan wheremask])
        | some true => (.error .unsupportedNA, [.naScan wheremask])
        | some false => (.ok false, [.naScan wheremask])
      else (.ok src.has_maskna, [])
    match scan with
    | (.error er, evs) => { ret := .error er, events := evs, usedSrc := none }
    | (.ok srcHasMaskna, evs) =>
      if ((dst.ndim = 1 ∧ 1 ≤ src.ndim ∧
            dst.strides.getD 0 0 * src.strides.getD (src.ndim - 1) 0 < 0) ∨ 1 < dst.ndim) ∧
          env.arraysOverlap src dst then
        match env.newLike dst with
        | none => { ret := .error .allocFail, events := evs, usedSrc := none }
        | some tmp0 =>
          let hasM := src.has_maskna
          let tmp := if hasM then { tmp0 with has_maskna := true } else tmp0
          let evs := evs ++ [.tempAlloc tmp0] ++ (if hasM then [.tempMaskAlloc tmp0.data] else [])
          if hasM ∧ ¬ env.allocMaskNAOk then
            { ret := .error .allocFail, events := evs ++ [.tempRelease tmp0.data],
              usedSrc := none }
          else
            let evs := evs ++ [.recursiveAssign tmp src none .force_cast false none]
            if ¬ env.recursiveAssignOk then
              { ret := .error .recursiveCopyFail,
                events := evs ++ [.tempRelease tmp0.data], usedSrc := none }
            else
              let rd := assignResolved env dst tmp srcHasMaskna wheremask preservena
              { ret := rd.1, events := evs ++ rd.2 ++ [.tempRelease tmp0.data],
                usedSrc := some tmp }
      else
        let rd := assignResolved env dst src srcHasMaskna wheremask preservena
        { ret := rd.1, events := evs ++ rd.2, usedSrc := some src }


/-- A trivial environment: every external collaborator succeeds, arrays never
overlap, scans find nothing, allocation fails (no overlap path is taken). -/
def envTriv : Env :=
  { canCast := fun _ _ _ => true
    arraysOverlap := fun _ _ => false
    containsNA := fun _ _ => some false
    naFromObject := fun _ => false
    assignNAOk := true
    assignRawScalarOk := true
    newLike := fun _ => none
    allocMaskNAOk := true
    recursiveAssignOk := true
    assignMaskNAOk := true
    rawAssignOk := true
    rawWhereOk := true
    rawWherePreserveOk := true }

/-- A 1-D read-only view used for the self-assignment instances. -/
def viewSelf : ArrayView :=
  { dims := [2], strides := [1], data := 100, descr := 0, writeable := false,
    has_maskna := false, maskna_data := 0, maskna_strides := [], maskna_descr := 0 }

/-- A plain writeable 1-D destination view. -/
def dstPlain : ArrayView :=
  { dims := [2], strides := [1], data := 10, descr := 0, writeable := true,
    has_maskna := false, maskna_data := 0, maskna_strides := [], maskna_descr := 0 }

/-- A plain 1-D source view distinct from `dstPlain`. -/
def srcPlain : ArrayView :=
  { dims := [2], strides := [1], data := 20, descr := 0, writeable := true,
    has_maskna := false, maskna_data := 0, maskna_strides := [], maskna_descr := 0 }

/-- Memory for the C6 counterexample: the source NA mask at 100/101 marks
element 0 as NA, and the where-mask at 200/201 is false exactly at element 0. -/
def memC6 : Mem := fun p =>
  if p = 100 then 0 else if p = 101 then 1 else
  if p = 200 then 0 else if p = 201 then 1 else 0

/-- An NA-masked 1-D source whose element 0 is NA under `memC6`. -/
def srcC6 : ArrayView :=
  { dims := [2], strides := [1], data := 20, descr := 0, writeable := true,
    has_maskna := true, maskna_data := 100, maskna_strides := [1], maskna_descr := 1 }

/-- A destination without NA support. -/
def dstC6 : ArrayView :=
  { dims := [2], strides := [1], data := 10, descr := 0, writeable := true,
    has_maskna := false, maskna_data := 0, maskna_strides := [], maskna_descr := 0 }

/-- The where-mask view whose bytes live at 200/201. -/
def wmC6 : ArrayView :=
  { dims := [2], strides := [1], data := 200, descr := 2, writeable := true,
    has_maskna := false, maskna_data := 0, maskna_strides := [], maskna_descr := 0 }

/-- Environment for the C6 counterexample: the NA scan is the spec-modelled
`modelContainsNA` over `memC6`. -/
def envC6 : Env := { envTriv with containsNA := modelContainsNA memC6 }

/-- Memory for the C6 amended-claim witness: the where-mask is true at the NA
position, so the restricted scan finds the NA. -/
def memC6b : Mem := fun p =>
  if p = 100 then 0 else if p = 101 then 1 else
  if p = 200 then 1 else if p = 201 then 1 else 0

/-- Environment for the C6 amended-claim witness. -/
def envC6b : Env := { envTriv with containsNA := modelContainsNA memC6b }

/-- A 2-D destination for the overlap temporary-copy witness. -/
def dstC2 : ArrayView :=
  { dims := [2, 2], strides := [2, 1], data := 10, descr := 0, writeable := true,
    has_maskna := false, maskna_data := 0, maskna_strides := [], maskna_descr := 0 }

/-- A 2-D source overlapping the destination (per the environment oracle). -/
def srcC2 : ArrayView :=
  { dims := [2, 2], strides := [2, 1], data := 11, descr := 0, writeable := true,
    has_maskna := false, maskna_data := 0, maskna_strides := [], maskna_descr := 0 }

/-- The temporary view returned by the allocation oracle in the C2 witness. -/
def tmpC2 : ArrayView :=
  { dims := [2, 2], strides := [2, 1], data := 500, descr := 0, writeable := true,
    has_maskna := false, maskna_data := 0, maskna_strides := [], maskna_descr := 0 }

/-- Environment for the C2 witness: the overlap test reports true and the
allocation returns `tmpC2`. -/
def envC2 : Env :=
  { envTriv with arraysOverlap := fun _ _ => true, newLike := fun _ => some tmpC2 }

/-- C1.  The claim states that for every 1-D destination/source pair with
same-signed strides overlapping in the forward direction, the reversal in
`raw_array_assign_array` guarantees that after assignment every destination
element equals the pre-assignment source element (no read-after-write
corruption).  The code violates this — and thereby its own comment at
array_assign_array.c:499-504 ("When ndim is 1 and the strides point in the
same direction, the lower-level inner loop handles copying of overlapping
data") — whenever the same-signed strides differ: with 1-byte elements,
memory bytes `0..9` holding their address, destination at address 2 with
stride 1, source at address 0 with stride 2, 5 elements (both strides
positive, `src < dst`, `src + 5*2 > dst`, so the claimed hypotheses hold and
the reversal fires), destination element 3 (address 5) ends holding byte 8 —
the already-overwritten value — while the pre-assignment source element 3
(address 6) held byte 6. -/
theorem c1_overlap_reversal_corrupts :
    ((0 : Int) < 2 ∧ (0 : Int) + 5 * 2 > 2 ∧ (1 : Int) * 2 > 0) ∧
    ((raw_array_assign_array idCast 1 [5] 2 [1] 0 [2] memC1).1) 5 = 8 ∧
    memC1 (0 + 3 * 2) = 6 ∧
    ((raw_array_assign_array idCast 1 [5] 2 [1] 0 [2] memC1).1) 5 ≠ memC1 (0 + 3 * 2) := by
  refine ⟨by norm_num, by decide, by decide, by decide⟩

/-- C8.  The claim states that in each of the three raw transfer routines the
innermost strides passed to the transfer-function resolver are exactly the
innermost strides used by the subsequent transfer loop (post-preparation,
post-reversal).  `raw_array_wheremasked_assign_array_preservena` violates
this: line 293 passes `src_strides[0]` — the pre-reversal parameter — where
its two sibling routines pass `src_strides_it[0]` (lines 84, 175).  On a 1-D
call with destination base 3/stride 1, source base 0/stride 2, 4 elements
(forward overlap, so the reversal fires), the resolver receives source
stride 2 while the transfer loop runs with source stride -2; the destination
and mask strides agree between resolver and loop, isolating the slip to the
source stride. -/
theorem c8_preservena_resolver_stride_mismatch :
    ((raw_array_wheremasked_assign_array_preservena [4] 3 [1] 0 [2] 100 [1] 200 [1] 1).1.resolverSrcStride = 2) ∧
    ((raw_array_wheremasked_assign_array_preservena [4] 3 [1] 0 [2] 100 [1] 200 [1] 1).1.loopSrcStride = -2) ∧
    (raw_array_wheremasked_assign_array_preservena [4] 3 [1] 0 [2] 100 [1] 200 [1] 1).1.resolverSrcStride ≠
      (raw_array_wheremasked_assign_array_preservena [4] 3 [1] 0 [2] 100 [1] 200 [1] 1).1.loopSrcStride ∧
    ((raw_array_wheremasked_assign_array_preservena [4] 3 [1] 0 [2] 100 [1] 200 [1] 1).1.resolverDstStride =
      (raw_array_wheremasked_assign_array_preservena [4] 3 [1] 0 [2] 100 [1] 200 [1] 1).1.loopDstStride) ∧
    ((raw_array_wheremasked_assign_array_preservena [4] 3 [1] 0 [2] 100 [1] 200 [1] 1).1.resolverMaskStride =
      (raw_array_wheremasked_assign_array_preservena [4] 3 [1] 0 [2] 100 [1] 200 [1] 1).1.loopMaskStride) := by
  refine ⟨by decide, by decide, by decide, by decide, by decide⟩

theorem flatMap_congr' {α β : Type} {l : List α} {f g : α → List β}
    (h : ∀ a ∈ l, f a = g a) : l.flatMap f = l.flatMap g := by
  induction l with
  | nil => rfl
  | cons a t ih =>
    simp only [List.flatMap_cons]
    rw [h a (by simp), ih (fun x hx => h x (by simp [hx]))]

theorem bufsize_pos : 0 < NPY_ARRAY_ASSIGN_BUFFERSIZE := by
  simp only [NPY_ARRAY_ASSIGN_BUFFERSIZE]; omega

theorem pnEvents_step (n : Nat) (dP sP mP wP ds ss ms ws : Int)
    (h : 0 < n - NPY_ARRAY_ASSIGN_BUFFERSIZE) :
    preservenaInnerEvents n dP sP mP wP ds ss ms ws =
      [PNEvent.maskand NPY_ARRAY_ASSIGN_BUFFERSIZE mP wP,
       PNEvent.transfer NPY_ARRAY_ASSIGN_BUFFERSIZE dP sP] ++
      preservenaInnerEvents (n - NPY_ARRAY_ASSIGN_BUFFERSIZE)
        (dP + (NPY_ARRAY_ASSIGN_BUFFERSIZE : Int) * ds) (sP + (NPY_ARRAY_ASSIGN_BUFFERSIZE : Int) * ss)
        (mP + (NPY_ARRAY_ASSIGN_BUFFERSIZE : Int) * ms) (wP + (NPY_ARRAY_ASSIGN_BUFFERSIZE : Int) * ws)
        ds ss ms ws := by
  have hB : min n NPY_ARRAY_ASSIGN_BUFFERSIZE = NPY_ARRAY_ASSIGN_BUFFERSIZE := by
    have := bufsize_pos; omega
  rw [preservenaInnerEvents]
  simp only [hB, h, if_pos]

theorem pnEvents_base (n : Nat) (dP sP mP wP ds ss ms ws : Int)
    (h : ¬ 0 < n - NPY_ARRAY_ASSIGN_BUFFERSIZE) :
    preservenaInnerEvents n dP sP mP wP ds ss ms ws =
      [PNEvent.maskand n mP wP, PNEvent.transfer n dP sP] := by
  have hbn : min n NPY_ARRAY_ASSIGN_BUFFERSIZE = n := by
    have := bufsize_pos; omega
  have hb0 : n - min n NPY_ARRAY_ASSIGN_BUFFERSIZE = 0 := by omega
  rw [preservenaInnerEvents]
  simp only [hbn, hb0, Nat.lt_irrefl, if_neg, List.append_nil, not_false_iff]
  simp

theorem numChunks_step (n : Nat) (h : 0 < n - NPY_ARRAY_ASSIGN_BUFFERSIZE) :
    numChunks n = 1 + numChunks (n - NPY_ARRAY_ASSIGN_BUFFERSIZE) := by
  have hB : min n NPY_ARRAY_ASSIGN_BUFFERSIZE = NPY_ARRAY_ASSIGN_BUFFERSIZE := by
    have := bufsize_pos; omega
  rw [numChunks]; simp only [hB, h, if_pos]

theorem numChunks_base (n : Nat) (h : ¬ 0 < n - NPY_ARRAY_ASSIGN_BUFFERSIZE) :
    numChunks n = 1 := by
  have hb0 : n - min n NPY_ARRAY_ASSIGN_BUFFERSIZE = 0 := by omega
  rw [numChunks]; simp [hb0]

theorem chunkCalls_zero (n : Nat) (dP sP mP wP ds ss ms ws : Int)
    (h : NPY_ARRAY_ASSIGN_BUFFERSIZE ≤ n) :
    chunkCalls n dP sP mP wP ds ss ms ws 0 =
      [PNEvent.maskand NPY_ARRAY_ASSIGN_BUFFERSIZE mP wP,
       PNEvent.transfer NPY_ARRAY_ASSIGN_BUFFERSIZE dP sP] := by
  simp only [chunkCalls, Nat.mul_zero, Nat.sub_zero, Nat.cast_zero, zero_mul, add_zero]
  rw [min_eq_right h]

theorem chunkCalls_zero_small (n : Nat) (dP sP mP wP ds ss ms ws : Int)
    (h : n ≤ NPY_ARRAY_ASSIGN_BUFFERSIZE) :
    chunkCalls n dP sP mP wP ds ss ms ws 0 =
      [PNEvent.maskand n mP wP, PNEvent.transfer n dP sP] := by
  simp only [chunkCalls, Nat.mul_zero, Nat.sub_zero, Nat.cast_zero, zero_mul, add_zero]
  rw [min_eq_left h]

theorem chunkCalls_succ (n : Nat) (dP sP mP wP ds ss ms ws : Int) (k : Nat) :
    chunkCalls (n - NPY_ARRAY_ASSIGN_BUFFERSIZE)
        (dP + (NPY_ARRAY_ASSIGN_BUFFERSIZE : Int) * ds) (sP + (NPY_ARRAY_ASSIGN_BUFFERSIZE : Int) * ss)
        (mP + (NPY_ARRAY_ASSIGN_BUFFERSIZE : Int) * ms) (wP + (NPY_ARRAY_ASSIGN_BUFFERSIZE : Int) * ws)
        ds ss ms ws k
      = chunkCalls n dP sP mP wP ds ss ms ws (k + 1) := by
  have ecnt : n - NPY_ARRAY_ASSIGN_BUFFERSIZE - NPY_ARRAY_ASSIGN_BUFFERSIZE * k
      = n - NPY_ARRAY_ASSIGN_BUFFERSIZE * (k + 1) := by
    rw [Nat.mul_succ]; omega
  have eptr : ∀ (base q : Int),
      base + (NPY_ARRAY_ASSIGN_BUFFERSIZE : Int) * q
        + ((NPY_ARRAY_ASSIGN_BUFFERSIZE * k : Nat) : Int) * q
      = base + ((NPY_ARRAY_ASSIGN_BUFFERSIZE * (k + 1) : Nat) : Int) * q := by
    intro base q; push_cast; ring
  simp only [chunkCalls, ecnt, eptr]

theorem pnEvents_chunks (n : Nat) (dP sP mP wP ds ss ms ws : Int) :
    preservenaInnerEvents n dP sP mP wP ds ss ms ws =
      (List.range (numChunks n)).flatMap (chunkCalls n dP sP mP wP ds ss ms ws) := by
  induction n using Nat.strong_induction_on generalizing dP sP mP wP with
  | _ n ih =>
    by_cases h : 0 < n - NPY_ARRAY_ASSIGN_BUFFERSIZE
    · have hlt : n - NPY_ARRAY_ASSIGN_BUFFERSIZE < n := by
        have := bufsize_pos; omega
      rw [pnEvents_step n dP sP mP wP ds ss ms ws h,
          ih (n - NPY_ARRAY_ASSIGN_BUFFERSIZE) hlt, numChunks_step n h,
          Nat.add_comm 1, List.range_succ_eq_map]
      rw [List.flatMap_cons, List.flatMap_map]
      rw [chunkCalls_zero n dP sP mP wP ds ss ms ws (by have := bufsize_pos; omega)]
      apply congrArg
      apply flatMap_congr'
      intro k _
      exact chunkCalls_succ n dP sP mP wP ds ss ms ws k
    · rw [pnEvents_base n dP sP mP wP ds ss ms ws h, numChunks_base n h]
      have h1 : List.range 1 = [0] := by simp [List.range_succ]
      rw [h1, List.flatMap_cons, List.flatMap_nil, List.append_nil,
        chunkCalls_zero_small n dP sP mP wP ds ss ms ws (by omega)]

theorem pn_sum (n : Nat) :
    ((List.range (numChunks n)).map
      (fun k => min (n - NPY_ARRAY_ASSIGN_BUFFERSIZE * k) NPY_ARRAY_ASSIGN_BUFFERSIZE)).sum = n := by
  induction n using Nat.strong_induction_on with
  | _ n ih =>
    by_cases h : 0 < n - NPY_ARRAY_ASSIGN_BUFFERSIZE
    · have hlt : n - NPY_ARRAY_ASSIGN_BUFFERSIZE < n := by
        have := bufsize_pos; omega
      rw [numChunks_step n h, Nat.add_comm 1, List.range_succ_eq_map]
      rw [List.map_cons, List.sum_cons, List.map_map]
      have hmc : (List.range (numChunks (n - NPY_ARRAY_ASSIGN_BUFFERSIZE))).map
          ((fun k => min (n - NPY_ARRAY_ASSIGN_BUFFERSIZE * k) NPY_ARRAY_ASSIGN_BUFFERSIZE) ∘ Nat.succ)
          = (List.range (numChunks (n - NPY_ARRAY_ASSIGN_BUFFERSIZE))).map
          (fun k => min (n - NPY_ARRAY_ASSIGN_BUFFERSIZE - NPY_ARRAY_ASSIGN_BUFFERSIZE * k)
            NPY_ARRAY_ASSIGN_BUFFERSIZE) := by
        apply List.map_congr_left
        intro k _
        have ecnt : n - NPY_ARRAY_ASSIGN_BUFFERSIZE - NPY_ARRAY_ASSIGN_BUFFERSIZE * k
            = n - NPY_ARRAY_ASSIGN_BUFFERSIZE * (k + 1) := by
          rw [Nat.mul_succ]; omega
        rw [Function.comp_apply, Nat.succ_eq_add_one, ecnt]
      rw [hmc, ih (n - NPY_ARRAY_ASSIGN_BUFFERSIZE) hlt]
      rw [Nat.mul_zero, Nat.sub_zero]
      have := bufsize_pos; omega
    · rw [numChunks_base n h]
      have h1 : List.range 1 = [0] := by simp [List.range_succ]
      rw [h1, List.map_cons, List.map_nil, List.sum_cons, List.sum_nil, Nat.mul_zero, Nat.sub_zero]
      have := bufsize_pos; omega

/-- C9.  Every innermost run of the where-masked preserve-NA transfer is
processed in chunks: chunk `k` covers offsets `BUFFERSIZE*k` onward with size
`min(remaining, BUFFERSIZE)`; for each chunk the combined mask is first
materialized into the scratch buffer (`maskand` call) and then exactly that
chunk is transferred (`transfer` call of the same count); all four data
pointers advance by the chunk count times their respective innermost strides
(the pointer of chunk `k` is the base plus `BUFFERSIZE*k` strides); and the
chunk sizes sum to the run length, so the chunks cover the run exactly and
without overlap. -/
theorem c9_preservena_chunking (n : Nat) (dP sP mP wP ds ss ms ws : Int) :
    preservenaInnerEvents n dP sP mP wP ds ss ms ws =
      (List.range (numChunks n)).flatMap (chunkCalls n dP sP mP wP ds ss ms ws) ∧
    ((List.range (numChunks n)).map
      (fun k => min (n - NPY_ARRAY_ASSIGN_BUFFERSIZE * k) NPY_ARRAY_ASSIGN_BUFFERSIZE)).sum = n :=
  ⟨pnEvents_chunks n dP sP mP wP ds ss ms ws, pn_sum n⟩

theorem writeElem_outside (m : Mem) (a : Int) (es : Nat) (v : Nat → Nat) (p : Int)
    (h : ¬ regionMem a es p) : writeElem m a es v p = m p := by
  simp only [writeElem, regionMem] at *
  rw [if_neg h]

theorem maskedTransferList_frame (f : CastFn) (es : Nat) (W : Int → Prop) :
    ∀ (items : List (Int × Int × Int)) (m m' : Mem),
    (∀ p, ¬ W p → m' p = m p) →
    (∀ it ∈ items, ¬ W it.2.2) →
    (∀ it ∈ items, maskTrue (m it.2.2) = true → ∀ p, regionMem it.1 es p → W p) →
    ∀ p, ¬ W p → maskedTransferList f es items m' p = m p := by
  intro items
  induction items with
  | nil =>
    intro m m' hag _ _ p hp
    exact hag p hp
  | cons it rest ih =>
    intro m m' hag hmask hwrite p hp
    have hmaskaddr : m' it.2.2 = m it.2.2 := hag it.2.2 (hmask it (by simp))
    have hstep : ∀ q, ¬ W q → maskedWriteStep f es m' it q = m q := by
      intro q hq
      rw [maskedWriteStep, hmaskaddr]
      by_cases hmt : maskTrue (m it.2.2)
      · rw [if_pos hmt]
        have hqr : ¬ regionMem it.1 es q := fun hr => hq (hwrite it (by simp) hmt q hr)
        rw [writeElem_outside _ _ _ _ _ hqr]
        exact hag q hq
      · rw [if_neg hmt]
        exact hag q hq
    have hcons : maskedTransferList f es (it :: rest) m'
        = maskedTransferList f es rest (maskedWriteStep f es m' it) := by
      simp [maskedTransferList]
    rw [hcons]
    exact ih m (maskedWriteStep f es m' it) hstep
      (fun x hx => hmask x (by simp [hx]))
      (fun x hx => hwrite x (by simp [hx])) p hp

theorem maskedTransferList_append (f : CastFn) (es : Nat) (l1 l2 : List (Int × Int × Int)) (m : Mem) :
    maskedTransferList f es (l1 ++ l2) m = maskedTransferList f es l2 (maskedTransferList f es l1 m) := by
  simp [maskedTransferList, List.foldl_append]

theorem maskedTransferList_flatMap {α : Type} (f : CastFn) (es : Nat)
    (l : List α) (g : α → List (Int × Int × Int)) :
    ∀ m : Mem, maskedTransferList f es (l.flatMap g) m
      = l.foldl (fun mem a => maskedTransferList f es (g a) mem) m := by
  induction l with
  | nil => intro m; rfl
  | cons a t ih =>
    intro m
    rw [List.flatMap_cons, maskedTransferList_append, ih, List.foldl_cons]

theorem routine2_as_list (f : CastFn) (es : Nat) (n : Nat) (oshape : List Nat)
    (dP ds : Int) (ods : List Int) (sP ss : Int) (oss : List Int)
    (wP ws : Int) (ows : List Int) (m : Mem) :
    ∃ items : List (Int × Int × Int),
      (raw_array_wheremasked_assign_array f es (n :: oshape) dP (ds :: ods)
          sP (ss :: oss) wP (ws :: ows) m).1
        = maskedTransferList f es items m ∧
      ∀ it ∈ items, ∃ c ∈ coords oshape, ∃ j, j < n ∧
        it = (dP + offsetOf ods c + (j : Int) * ds,
              sP + offsetOf oss c + (j : Int) * ss,
              wP + offsetOf ows c + (j : Int) * ws) := by
  by_cases hrev : (oshape.isEmpty && decide (sP < dP) && decide (dP < sP + (n : Int) * ss)) = true
  · have h1 : oshape.isEmpty = true ∧ sP < dP ∧ dP < sP + (n : Int) * ss := by
      simpa [Bool.and_eq_true, decide_eq_true_eq, and_assoc] using hrev
    have hosh : oshape = [] := List.isEmpty_iff.mp h1.1
    subst hosh
    refine ⟨(List.range n).map fun (k : Nat) =>
      (dP + ((n : Int) - 1) * ds + (k : Int) * (-ds),
       sP + ((n : Int) - 1) * ss + (k : Int) * (-ss),
       wP + ((n : Int) - 1) * ws + (k : Int) * (-ws)), ?_, ?_⟩
    · rw [raw_array_wheremasked_assign_array]
      simp only [hrev, if_pos, coords, List.foldl_cons, List.foldl_nil, stransferMasked]
      simp [offsetOf]
    · intro it hit
      rcases List.mem_map.mp hit with ⟨k, hk, rfl⟩
      have hkn : k < n := List.mem_range.mp hk
      refine ⟨[], by simp [coords], n - 1 - k, by omega, ?_⟩
      have hcast : ((n - 1 - k : Nat) : Int) = (n : Int) - 1 - (k : Int) := by omega
      simp only [offsetOf, List.zip_nil_right, List.map_nil, List.sum_nil, add_zero, hcast,
        Prod.mk.injEq]
      refine ⟨by ring, by ring, by ring⟩
  · refine ⟨(coords oshape).flatMap fun c => (List.range n).map fun (k : Nat) =>
      (dP + offsetOf ods c + (k : Int) * ds,
       sP + offsetOf oss c + (k : Int) * ss,
       wP + offsetOf ows c + (k : Int) * ws), ?_, ?_⟩
    · rw [raw_array_wheremasked_assign_array]
      simp only [hrev, if_neg, Bool.not_eq_true]
      rw [maskedTransferList_flatMap]
      simp only [stransferMasked]
    · intro it hit
      rcases List.mem_flatMap.mp hit with ⟨c, hc, hit2⟩
      rcases List.mem_map.mp hit2 with ⟨k, hk, rfl⟩
      exact ⟨c, hc, k, List.mem_range.mp hk, rfl⟩

/-- C5.  Frame property of the where-masked raw assignment: provided the
destination element regions of distinct iteration positions do not overlap
and no where-mask byte lies inside a destination element region, then (a) any
byte outside the regions of the where-mask-true destination elements is left
unchanged by `raw_array_wheremasked_assign_array`, and in particular (b)
every destination element at a where-mask-false position retains its
pre-assignment value byte-for-byte. -/
theorem c5_wheremask_frame (f : CastFn) (es : Nat) (n : Nat) (oshape : List Nat)
    (dP ds : Int) (ods : List Int) (sP ss : Int) (oss : List Int)
    (wP ws : Int) (ows : List Int) (m : Mem)
    (hdisj : ∀ c ∈ coords oshape, ∀ k < n, ∀ c' ∈ coords oshape, ∀ k' < n,
      ¬(c = c' ∧ k = k') →
      ¬(dP + offsetOf ods c + (k : Int) * ds < dP + offsetOf ods c' + (k' : Int) * ds + es ∧
        dP + offsetOf ods c' + (k' : Int) * ds < dP + offsetOf ods c + (k : Int) * ds + es))
    (hmaskdisj : ∀ c ∈ coords oshape, ∀ k < n, ∀ c' ∈ coords oshape, ∀ k' < n,
      ¬ regionMem (dP + offsetOf ods c' + (k' : Int) * ds) es
        (wP + offsetOf ows c + (k : Int) * ws)) :
    (∀ p : Int,
      (∀ c' ∈ coords oshape, ∀ k' < n,
        maskTrue (m (wP + offsetOf ows c' + (k' : Int) * ws)) = true →
        ¬ regionMem (dP + offsetOf ods c' + (k' : Int) * ds) es p) →
      (raw_array_wheremasked_assign_array f es (n :: oshape) dP (ds :: ods)
          sP (ss :: oss) wP (ws :: ows) m).1 p = m p) ∧
    (∀ c ∈ coords oshape, ∀ k < n,
      maskTrue (m (wP + offsetOf ows c + (k : Int) * ws)) = false →
      ∀ p, regionMem (dP + offsetOf ods c + (k : Int) * ds) es p →
        (raw_array_wheremasked_assign_array f es (n :: oshape) dP (ds :: ods)
            sP (ss :: oss) wP (ws :: ows) m).1 p = m p) := by
  obtain ⟨items, heq, hchar⟩ :=
    routine2_as_list f es n oshape dP ds ods sP ss oss wP ws ows m
  have frame : ∀ p : Int,
      ¬(∃ c' ∈ coords oshape, ∃ k', k' < n ∧
        maskTrue (m (wP + offsetOf ows c' + (k' : Int) * ws)) = true ∧
        regionMem (dP + offsetOf ods c' + (k' : Int) * ds) es p) →
      (raw_array_wheremasked_assign_array f es (n :: oshape) dP (ds :: ods)
          sP (ss :: oss) wP (ws :: ows) m).1 p = m p := by
    intro p hp
    rw [heq]
    refine maskedTransferList_frame f es
      (fun q => ∃ c' ∈ coords oshape, ∃ k', k' < n ∧
        maskTrue (m (wP + offsetOf ows c' + (k' : Int) * ws)) = true ∧
        regionMem (dP + offsetOf ods c' + (k' : Int) * ds) es q)
      items m m (fun _ _ => rfl) ?_ ?_ p hp
    · intro it hit
      rcases hchar it hit with ⟨c0, hc0, j, hj, rfl⟩
      rintro ⟨c', hc', k', hk', _, hr⟩
      exact hmaskdisj c0 hc0 j hj c' hc' k' hk' hr
    · intro it hit hmt q hq
      rcases hchar it hit with ⟨c0, hc0, j, hj, rfl⟩
      exact ⟨c0, hc0, j, hj, hmt, hq⟩
  constructor
  · intro p hp
    refine frame p ?_
    rintro ⟨c', hc', k', hk', hmt', hr'⟩
    exact hp c' hc' k' hk' hmt' hr'
  · intro c hc k hk hfalse p hp
    refine frame p ?_
    rintro ⟨c', hc', k', hk', hmt', hr'⟩
    by_cases hsame : c = c' ∧ k = k'
    · rcases hsame with ⟨rfl, rfl⟩
      rw [hfalse] at hmt'
      exact Bool.false_ne_true hmt'
    · refine hdisj c hc k hk c' hc' k' hk' hsame ?_
      rcases hp with ⟨hp1, hp2⟩
      rcases hr' with ⟨hr1, hr2⟩
      constructor <;> omega

/-- Witness for C5 at a concrete instance: 1-byte elements, a 1-D run of two
elements, destination at 10/11, source at 20/21, where-mask bytes at 30
(false) and 31 (true); the hypotheses are discharged by computation and the
frame theorem applies. -/
theorem c5_wheremask_frame_witness :
    (∀ c ∈ coords ([] : List Nat), ∀ k : Nat, k < 2 → ∀ c' ∈ coords ([] : List Nat),
      ∀ k' : Nat, k' < 2 →
      ¬(c = c' ∧ k = k') →
      ¬((10 : Int) + offsetOf [] c + (k : Int) * 1 < 10 + offsetOf [] c' + (k' : Int) * 1 + (1 : Nat) ∧
        (10 : Int) + offsetOf [] c' + (k' : Int) * 1 < 10 + offsetOf [] c + (k : Int) * 1 + (1 : Nat))) ∧
    (∀ c ∈ coords ([] : List Nat), ∀ k : Nat, k < 2 → ∀ c' ∈ coords ([] : List Nat),
      ∀ k' : Nat, k' < 2 →
      ¬ regionMem ((10 : Int) + offsetOf [] c' + (k' : Int) * 1) 1
        ((30 : Int) + offsetOf [] c + (k : Int) * 1)) ∧
    ((∀ p : Int,
      (∀ c' ∈ coords ([] : List Nat), ∀ k' : Nat, k' < 2 →
        maskTrue (memC5 ((30 : Int) + offsetOf [] c' + (k' : Int) * 1)) = true →
        ¬ regionMem ((10 : Int) + offsetOf [] c' + (k' : Int) * 1) 1 p) →
      (raw_array_wheremasked_assign_array idCast 1 [2] 10 [1] 20 [1] 30 [1] memC5).1 p = memC5 p) ∧
    (∀ c ∈ coords ([] : List Nat), ∀ k : Nat, k < 2 →
      maskTrue (memC5 ((30 : Int) + offsetOf [] c + (k : Int) * 1)) = false →
      ∀ p, regionMem ((10 : Int) + offsetOf [] c + (k : Int) * 1) 1 p →
        (raw_array_wheremasked_assign_array idCast 1 [2] 10 [1] 20 [1] 30 [1] memC5).1 p = memC5 p)) :=
  ⟨by decide, by decide,
   c5_wheremask_frame idCast 1 2 [] 10 1 [] 20 1 [] 30 1 [] memC5 (by decide) (by decide)⟩

theorem offsetOf_cons (a : Int) (l : List Int) (i : Nat) (idx : List Nat) :
    offsetOf (a :: l) (i :: idx) = a * (i : Int) + offsetOf l idx := by
  simp [offsetOf]

theorem offsetOf_nil_right (l : List Int) : offsetOf l [] = 0 := by
  simp [offsetOf]

theorem bcastZip_length : ∀ (D S : List Nat) (T : List Int) (Z : List Int),
    bcastZip D S T = some Z → Z.length = D.length ∧ S.length = D.length ∧ T.length = D.length := by
  intro D
  induction D with
  | nil =>
    intro S T Z h
    match S, T with
    | [], [] => simp [bcastZip] at h; simp [← h]
    | [], _ :: _ => simp [bcastZip] at h
    | _ :: _, _ => simp [bcastZip] at h
  | cons d ds ih =>
    intro S T Z h
    match S, T with
    | [], [] => simp [bcastZip] at h
    | [], _ :: _ => simp [bcastZip] at h
    | _ :: _, [] => simp [bcastZip] at h
    | s :: ss, t :: ts =>
      rw [bcastZip] at h
      by_cases h1 : s = 1
      · rw [if_pos h1] at h
        rcases Option.map_eq_some'.mp h with ⟨Z', hz, rfl⟩
        have := ih ss ts Z' hz
        simp [this]
      · rw [if_neg h1] at h
        by_cases h2 : s = d
        · rw [if_pos h2] at h
          rcases Option.map_eq_some'.mp h with ⟨Z', hz, rfl⟩
          have := ih ss ts Z' hz
          simp [this]
        · rw [if_neg h2] at h
          exact absurd h (by simp)

theorem bcastZip_entries : ∀ (D S : List Nat) (T Z : List Int),
    bcastZip D S T = some Z → ∀ j, j < S.length →
      (S.getD j 0 = 1 → Z.getD j 0 = 0) ∧
      (S.getD j 0 ≠ 1 → Z.getD j 0 = T.getD j 0 ∧ S.getD j 0 = D.getD j 0) := by
  intro D
  induction D with
  | nil =>
    intro S T Z h j hj
    match S, T with
    | [], [] => simp at hj
    | [], _ :: _ => simp [bcastZip] at h
    | _ :: _, _ => simp [bcastZip] at h
  | cons d ds ih =>
    intro S T Z h j hj
    match S, T with
    | [], [] => simp at hj
    | [], _ :: _ => simp [bcastZip] at h
    | _ :: _, [] => simp [bcastZip] at h
    | s :: ss, t :: ts =>
      rw [bcastZip] at h
      by_cases h1 : s = 1
      · rw [if_pos h1] at h
        rcases Option.map_eq_some'.mp h with ⟨Z', hz, rfl⟩
        match j with
        | 0 => subst h1; simp
        | j' + 1 =>
          simp only [List.getD_cons_succ]
          exact ih ss ts Z' hz j' (by simpa using hj)
      · rw [if_neg h1] at h
        by_cases h2 : s = d
        · rw [if_pos h2] at h
          rcases Option.map_eq_some'.mp h with ⟨Z', hz, rfl⟩
          match j with
          | 0 => subst h2; simp [h1]
          | j' + 1 =>
            simp only [List.getD_cons_succ]
            exact ih ss ts Z' hz j' (by simpa using hj)
        · rw [if_neg h2] at h
          exact absurd h (by simp)

theorem bcastZip_isSome : ∀ (D S : List Nat) (T : List Int),
    (bcastZip D S T).isSome ↔
      (S.length = D.length ∧ T.length = D.length ∧
       ∀ j, j < D.length → S.getD j 0 = 1 ∨ S.getD j 0 = D.getD j 0) := by
  intro D
  induction D with
  | nil =>
    intro S T
    match S, T with
    | [], [] => simp [bcastZip]
    | [], _ :: _ => rw [bcastZip.eq_def]; simp
    | _ :: _, [] => rw [bcastZip.eq_def]; simp
    | _ :: _, _ :: _ => rw [bcastZip.eq_def]; simp
  | cons d ds ih =>
    intro S T
    match S, T with
    | [], [] => rw [bcastZip.eq_def]; simp
    | [], _ :: _ => rw [bcastZip.eq_def]; simp
    | _ :: _, [] => rw [bcastZip.eq_def]; simp
    | s :: ss, t :: ts =>
      rw [bcastZip]
      by_cases h1 : s = 1
      · rw [if_pos h1]
        subst h1
        simp only [Option.isSome_map', ih ss ts]
        constructor
        · rintro ⟨hl1, hl2, hall⟩
          refine ⟨by simpa using hl1, by simpa using hl2, ?_⟩
          intro j hj
          match j with
          | 0 => left; simp
          | j' + 1 => simpa using hall j' (by simpa using hj)
        · rintro ⟨hl1, hl2, hall⟩
          refine ⟨by simpa using hl1, by simpa using hl2, ?_⟩
          intro j hj
          simpa using hall (j + 1) (by simpa using hj)
      · rw [if_neg h1]
        by_cases h2 : s = d
        · rw [if_pos h2]
          subst h2
          simp only [Option.isSome_map', ih ss ts]
          constructor
          · rintro ⟨hl1, hl2, hall⟩
            refine ⟨by simpa using hl1, by simpa using hl2, ?_⟩
            intro j hj
            match j with
            | 0 => right; simp
            | j' + 1 => simpa using hall j' (by simpa using hj)
          · rintro ⟨hl1, hl2, hall⟩
            refine ⟨by simpa using hl1, by simpa using hl2, ?_⟩
            intro j hj
            simpa using hall (j + 1) (by simpa using hj)
        · rw [if_neg h2]
          simp only [Option.isSome_none, Bool.false_eq_true, false_iff]
          rintro ⟨hl1, hl2, hall⟩
          rcases hall 0 (by simp) with hc | hc
          · exact h1 (by simpa using hc)
          · exact h2 (by simpa using hc)

theorem bcastZip_offset : ∀ (D S : List Nat) (T Z : List Int),
    bcastZip D S T = some Z → ∀ idx : List Nat,
      offsetOf Z idx
        = offsetOf T ((S.zip idx).map fun si => if si.1 = 1 then 0 else si.2) := by
  intro D
  induction D with
  | nil =>
    intro S T Z h idx
    match S, T with
    | [], [] =>
      simp [bcastZip] at h
      subst h
      simp [offsetOf]
    | [], _ :: _ => simp [bcastZip] at h
    | _ :: _, _ => simp [bcastZip] at h
  | cons d ds ih =>
    intro S T Z h idx
    match S, T with
    | [], [] => simp [bcastZip] at h
    | [], _ :: _ => simp [bcastZip] at h
    | _ :: _, [] => simp [bcastZip] at h
    | s :: ss, t :: ts =>
      rw [bcastZip] at h
      by_cases h1 : s = 1
      · rw [if_pos h1] at h
        rcases Option.map_eq_some'.mp h with ⟨Z', hz, rfl⟩
        match idx with
        | [] => simp [offsetOf]
        | i :: idx' =>
          subst h1
          simp only [List.zip_cons_cons, List.map_cons, if_pos rfl, offsetOf_cons,
            ih ss ts Z' hz idx']
          push_cast
          ring
      · rw [if_neg h1] at h
        by_cases h2 : s = d
        · rw [if_pos h2] at h
          rcases Option.map_eq_some'.mp h with ⟨Z', hz, rfl⟩
          match idx with
          | [] => simp [offsetOf]
          | i :: idx' =>
            simp only [List.zip_cons_cons, List.map_cons, if_neg h1, offsetOf_cons,
              ih ss ts Z' hz idx']
        · rw [if_neg h2] at h
          exact absurd h (by simp)

theorem offsetOf_replicate_zero_append : ∀ (p : Nat) (Z : List Int) (idx : List Nat),
    offsetOf (List.replicate p 0 ++ Z) idx = offsetOf Z (idx.drop p) := by
  intro p
  induction p with
  | zero => intro Z idx; simp
  | succ p ih =>
    intro Z idx
    match idx with
    | [] => simp [offsetOf]
    | i :: idx' =>
      rw [List.replicate_succ, List.cons_append, offsetOf_cons, ih Z idx']
      simp

theorem strip_nil_left (d : Nat) (T : List Int) : stripLeadingOnes d [] T = ([], T) := rfl

theorem strip_nil_right (d : Nat) (s : Nat) (ss : List Nat) :
    stripLeadingOnes d (s :: ss) [] = (s :: ss, []) := rfl

theorem stripLeadingOnes_spec (dstNdim : Nat) : ∀ (S : List Nat) (T : List Int),
    ∃ k, k ≤ S.length ∧
      (stripLeadingOnes dstNdim S T).1 = S.drop k ∧
      (stripLeadingOnes dstNdim S T).2 = T.drop k ∧
      (∀ i < k, S.getD i 0 = 1 ∧ dstNdim < S.length - i) := by
  intro S
  induction S with
  | nil =>
    intro T
    exact ⟨0, by simp, by rw [strip_nil_left]; simp, by rw [strip_nil_left]; simp, by omega⟩
  | cons s ss ih =>
    intro T
    match T with
    | [] =>
      exact ⟨0, by simp, by rw [strip_nil_right]; simp, by rw [strip_nil_right]; simp, by omega⟩
    | t :: ts =>
      by_cases hc : dstNdim < ss.length + 1 ∧ s = 1
      · obtain ⟨k, hk, h1, h2, h3⟩ := ih ts
        refine ⟨k + 1, by simpa using hk, ?_, ?_, ?_⟩
        · rw [stripLeadingOnes, if_pos hc, List.drop_succ_cons, h1]
        · rw [stripLeadingOnes, if_pos hc, List.drop_succ_cons, h2]
        · intro i hi
          match i with
          | 0 => exact ⟨by simpa using hc.2, by simp; omega⟩
          | i' + 1 =>
            have := h3 i' (by omega)
            simp only [List.getD_cons_succ, List.length_cons]
            exact ⟨this.1, by omega⟩
      · exact ⟨0, by simp, by rw [stripLeadingOnes, if_neg hc]; simp,
          by rw [stripLeadingOnes, if_neg hc]; simp, by omega⟩

theorem getD_replicate_zero : ∀ (p i : Nat), (List.replicate p (0 : Int)).getD i 0 = 0 := by
  intro p
  induction p with
  | zero => intro i; simp
  | succ p ih =>
    intro i
    match i with
    | 0 => simp [List.replicate_succ]
    | i' + 1 => simp only [List.replicate_succ, List.getD_cons_succ]; exact ih i'


theorem getD_drop' {α : Type} : ∀ (n : Nat) (l : List α) (i : Nat) (d : α),
    (l.drop n).getD i d = l.getD (n + i) d := by
  intro n
  induction n with
  | zero => intro l i d; simp
  | succ n ih =>
    intro l i d
    match l with
    | [] => simp
    | x :: xs =>
      rw [List.drop_succ_cons, ih xs i d]
      simp [Nat.succ_add]


theorem broadcastSrcToDst_eq (dstShape srcShape : List Nat) (srcStrides : List Int) :
    broadcastSrcToDst dstShape srcShape srcStrides
      = broadcast_strides dstShape (effectiveSrc dstShape srcShape srcStrides).1
          (effectiveSrc dstShape srcShape srcStrides).2 := by
  rw [broadcastSrcToDst, effectiveSrc]
  by_cases hl : dstShape.length < srcShape.length
  · rw [if_pos hl, if_pos hl]
  · rw [if_neg hl, if_neg hl]

theorem effectiveSrc_strip (dstShape srcShape : List Nat) (srcStrides : List Int) :
    ∃ k, k ≤ srcShape.length ∧
      (effectiveSrc dstShape srcShape srcStrides).1 = srcShape.drop k ∧
      (effectiveSrc dstShape srcShape srcStrides).2 = srcStrides.drop k ∧
      (∀ i < k, srcShape.getD i 0 = 1 ∧ dstShape.length < srcShape.length - i) := by
  rw [effectiveSrc]
  by_cases hl : dstShape.length < srcShape.length
  · rw [if_pos hl]
    exact stripLeadingOnes_spec dstShape.length srcShape srcStrides
  · rw [if_neg hl]
    exact ⟨0, by simp, by simp, by simp, by omega⟩

theorem broadcast_strides_isSome (D S : List Nat) (T : List Int)
    (hlen : S.length = T.length) :
    (broadcast_strides D S T).isSome ↔
      (S.length ≤ D.length ∧
       ∀ j, j < S.length → S.getD j 0 = 1 ∨ S.getD j 0 = D.getD (D.length - S.length + j) 0) := by
  rw [broadcast_strides]
  by_cases hm : S.length ≤ D.length
  · rw [if_pos hm, Option.isSome_map', bcastZip_isSome]
    have hdl : (D.drop (D.length - S.length)).length = S.length := by
      rw [List.length_drop]; omega
    constructor
    · rintro ⟨_, _, hall⟩
      refine ⟨hm, ?_⟩
      intro j hj
      have := hall j (by omega)
      rwa [getD_drop'] at this
    · rintro ⟨_, hall⟩
      refine ⟨by omega, by omega, ?_⟩
      intro j hj
      rw [getD_drop']
      exact hall j (by omega)
  · rw [if_neg hm]
    simp only [Option.isSome_none, Bool.false_eq_true, false_iff]
    rintro ⟨h, _⟩
    exact hm h

theorem broadcast_strides_some (D S : List Nat) (T : List Int) (bs : List Int)
    (h : broadcast_strides D S T = some bs) :
    S.length ≤ D.length ∧
    ∃ Z, bcastZip (D.drop (D.length - S.length)) S T = some Z ∧
      bs = List.replicate (D.length - S.length) 0 ++ Z := by
  rw [broadcast_strides] at h
  by_cases hm : S.length ≤ D.length
  · rw [if_pos hm] at h
    rcases Option.map_eq_some'.mp h with ⟨Z, hz, hbs⟩
    exact ⟨hm, Z, hz, hbs.symm⟩
  · rw [if_neg hm] at h
    exact absurd h (by simp)

/-- C4.  Broadcasting the source to the destination shape: the call first
strips leading unit dimensions when (and only while) the source has more
dimensions than the destination (all stripped extents equal 1); broadcasting
succeeds exactly when the remaining source fits and every extent is 1 or
equals the right-aligned destination extent; on success the produced stride
vector has stride 0 on dimensions absent on the left and on size-1 source
dimensions, keeps the source stride elsewhere, and iterating the destination
shape with it reproduces the source elements: the offset of every destination
index equals the source offset of the broadcast-corresponding (clamped)
source index. -/
theorem c4_broadcast_semantics (dstShape srcShape : List Nat) (srcStrides : List Int)
    (hlen : srcShape.length = srcStrides.length) :
    (broadcastSrcToDst dstShape srcShape srcStrides
       = broadcast_strides dstShape (effectiveSrc dstShape srcShape srcStrides).1
           (effectiveSrc dstShape srcShape srcStrides).2) ∧
    (∃ k, k ≤ srcShape.length ∧
       (effectiveSrc dstShape srcShape srcStrides).1 = srcShape.drop k ∧
       (effectiveSrc dstShape srcShape srcStrides).2 = srcStrides.drop k ∧
       (∀ i < k, srcShape.getD i 0 = 1 ∧ dstShape.length < srcShape.length - i)) ∧
    ((broadcastSrcToDst dstShape srcShape srcStrides).isSome ↔
       ((effectiveSrc dstShape srcShape srcStrides).1.length ≤ dstShape.length ∧
        ∀ j, j < (effectiveSrc dstShape srcShape srcStrides).1.length →
          (effectiveSrc dstShape srcShape srcStrides).1.getD j 0 = 1 ∨
          (effectiveSrc dstShape srcShape srcStrides).1.getD j 0
            = dstShape.getD
                (dstShape.length - (effectiveSrc dstShape srcShape srcStrides).1.length + j) 0)) ∧
    (∀ bs, broadcastSrcToDst dstShape srcShape srcStrides = some bs →
       bs.length = dstShape.length ∧
       (∀ i, i < dstShape.length - (effectiveSrc dstShape srcShape srcStrides).1.length →
          bs.getD i 0 = 0) ∧
       (∀ j, j < (effectiveSrc dstShape srcShape srcStrides).1.length →
         ((effectiveSrc dstShape srcShape srcStrides).1.getD j 0 = 1 →
            bs.getD (dstShape.length
              - (effectiveSrc dstShape srcShape srcStrides).1.length + j) 0 = 0) ∧
         ((effectiveSrc dstShape srcShape srcStrides).1.getD j 0 ≠ 1 →
            bs.getD (dstShape.length
              - (effectiveSrc dstShape srcShape srcStrides).1.length + j) 0
              = (effectiveSrc dstShape srcShape srcStrides).2.getD j 0)) ∧
       (∀ idx : List Nat, idx.length = dstShape.length →
          offsetOf bs idx
            = offsetOf (effectiveSrc dstShape srcShape srcStrides).2
                (srcIndex (effectiveSrc dstShape srcShape srcStrides).1 idx))) := by
  obtain ⟨k, hk, hS, hT, hones⟩ := effectiveSrc_strip dstShape srcShape srcStrides
  set eS := (effectiveSrc dstShape srcShape srcStrides).1 with heS
  set eT := (effectiveSrc dstShape srcShape srcStrides).2 with heT
  have hlen' : eS.length = eT.length := by
    rw [hS, hT, List.length_drop, List.length_drop, hlen]
  refine ⟨broadcastSrcToDst_eq dstShape srcShape srcStrides, ⟨k, hk, hS, hT, hones⟩, ?_, ?_⟩
  · rw [broadcastSrcToDst_eq dstShape srcShape srcStrides, ← heS, ← heT]
    exact broadcast_strides_isSome dstShape eS eT hlen'
  · intro bs hbs
    rw [broadcastSrcToDst_eq dstShape srcShape srcStrides, ← heS, ← heT] at hbs
    obtain ⟨hm, Z, hz, hbseq⟩ := broadcast_strides_some dstShape eS eT bs hbs
    have hZlen : Z.length = eS.length := by
      have := (bcastZip_length _ _ _ _ hz).1
      rw [this, List.length_drop]
      omega
    have hplen : (List.replicate (dstShape.length - eS.length) (0 : Int)).length
        = dstShape.length - eS.length := List.length_replicate _ _
    refine ⟨?_, ?_, ?_, ?_⟩
    · rw [hbseq, List.length_append, hplen, hZlen]; omega
    · intro i hi
      rw [hbseq, List.getD_append _ _ _ i (by rw [hplen]; omega), getD_replicate_zero]
    · intro j hj
      have hidx : (dstShape.length - eS.length) ≤ dstShape.length - eS.length + j := by omega
      have hsub : dstShape.length - eS.length + j - (dstShape.length - eS.length) = j := by omega
      have hrt : bs.getD (dstShape.length - eS.length + j) 0 = Z.getD j 0 := by
        rw [hbseq, List.getD_append_right _ _ _ _ (by rw [hplen]; omega), hplen, hsub]
      have hent := bcastZip_entries _ _ _ _ hz j hj
      constructor
      · intro h1
        rw [hrt]
        exact hent.1 h1
      · intro h1
        rw [hrt]
        exact (hent.2 h1).1
    · intro idx hidxlen
      rw [hbseq, offsetOf_replicate_zero_append, bcastZip_offset _ _ _ _ hz, srcIndex]
      have : idx.length - eS.length = dstShape.length - eS.length := by omega
      rw [this]

/-- Witness for C4 at a concrete instance: broadcasting a shape-[1,1,3] source
with strides [7,9,5] into a shape-[2,3] destination (one leading unit
dimension stripped, then the remaining [1,3] broadcast to [2,3]). -/
theorem c4_broadcast_semantics_witness :
    ([1, 1, 3] : List Nat).length = ([7, 9, 5] : List Int).length ∧
    ((broadcastSrcToDst [2, 3] [1, 1, 3] [7, 9, 5]
       = broadcast_strides [2, 3] (effectiveSrc [2, 3] [1, 1, 3] [7, 9, 5]).1
           (effectiveSrc [2, 3] [1, 1, 3] [7, 9, 5]).2) ∧
    (∃ k, k ≤ ([1, 1, 3] : List Nat).length ∧
       (effectiveSrc [2, 3] [1, 1, 3] [7, 9, 5]).1 = ([1, 1, 3] : List Nat).drop k ∧
       (effectiveSrc [2, 3] [1, 1, 3] [7, 9, 5]).2 = ([7, 9, 5] : List Int).drop k ∧
       (∀ i < k, ([1, 1, 3] : List Nat).getD i 0 = 1 ∧
          ([2, 3] : List Nat).length < ([1, 1, 3] : List Nat).length - i)) ∧
    ((broadcastSrcToDst [2, 3] [1, 1, 3] [7, 9, 5]).isSome ↔
       ((effectiveSrc [2, 3] [1, 1, 3] [7, 9, 5]).1.length ≤ ([2, 3] : List Nat).length ∧
        ∀ j, j < (effectiveSrc [2, 3] [1, 1, 3] [7, 9, 5]).1.length →
          (effectiveSrc [2, 3] [1, 1, 3] [7, 9, 5]).1.getD j 0 = 1 ∨
          (effectiveSrc [2, 3] [1, 1, 3] [7, 9, 5]).1.getD j 0
            = ([2, 3] : List Nat).getD
                (([2, 3] : List Nat).length
                  - (effectiveSrc [2, 3] [1, 1, 3] [7, 9, 5]).1.length + j) 0)) ∧
    (∀ bs, broadcastSrcToDst [2, 3] [1, 1, 3] [7, 9, 5] = some bs →
       bs.length = ([2, 3] : List Nat).length ∧
       (∀ i, i < ([2, 3] : List Nat).length
            - (effectiveSrc [2, 3] [1, 1, 3] [7, 9, 5]).1.length →
          bs.getD i 0 = 0) ∧
       (∀ j, j < (effectiveSrc [2, 3] [1, 1, 3] [7, 9, 5]).1.length →
         ((effectiveSrc [2, 3] [1, 1, 3] [7, 9, 5]).1.getD j 0 = 1 →
            bs.getD (([2, 3] : List Nat).length
              - (effectiveSrc [2, 3] [1, 1, 3] [7, 9, 5]).1.length + j) 0 = 0) ∧
         ((effectiveSrc [2, 3] [1, 1, 3] [7, 9, 5]).1.getD j 0 ≠ 1 →
            bs.getD (([2, 3] : List Nat).length
              - (effectiveSrc [2, 3] [1, 1, 3] [7, 9, 5]).1.length + j) 0
              = (effectiveSrc [2, 3] [1, 1, 3] [7, 9, 5]).2.getD j 0)) ∧
       (∀ idx : List Nat, idx.length = ([2, 3] : List Nat).length →
          offsetOf bs idx
            = offsetOf (effectiveSrc [2, 3] [1, 1, 3] [7, 9, 5]).2
                (srcIndex (effectiveSrc [2, 3] [1, 1, 3] [7, 9, 5]).1 idx)))) :=
  ⟨by decide, c4_broadcast_semantics [2, 3] [1, 1, 3] [7, 9, 5] (by decide)⟩

/-- C3.  When destination and source are non-0-dimensional views with identical
data pointer, NA-mask pointer, dtype identity, rank, extents and strides,
`PyArray_AssignArray` returns success immediately with an empty event trace:
no raw transfer, delegation, scan or allocation happens, so no memory is
written. -/
theorem c3_self_assignment_noop (env : Env) (dst src : ArrayView) (wheremask : Option ArrayView)
    (casting : NpyCasting) (preservena : Bool) (preservewhichna : Option (List Bool))
    (hnd : src.ndim ≠ 0) (hid : identityTest dst src = true) :
    (PyArray_AssignArray env dst src wheremask casting preservena preservewhichna).ret
      = .ok () ∧
    (PyArray_AssignArray env dst src wheremask casting preservena preservewhichna).events
      = [] := by
  rw [PyArray_AssignArray]
  simp [hnd, hid]

/-- C10.  The redundant-self-assignment short-circuit is evaluated before the
writeability check: under the identity conditions a read-only destination
still makes `PyArray_AssignArray` return success with no events, and no
ReadOnlyTarget error is raised. -/
theorem c10_self_assignment_skips_writeable_check (env : Env) (dst src : ArrayView) (wheremask : Option ArrayView)
    (casting : NpyCasting) (preservena : Bool) (preservewhichna : Option (List Bool))
    (hnd : src.ndim ≠ 0) (hid : identityTest dst src = true)
    (hro : dst.writeable = false) :
    (PyArray_AssignArray env dst src wheremask casting preservena preservewhichna).ret
      = .ok () ∧
    (PyArray_AssignArray env dst src wheremask casting preservena preservewhichna).ret
      ≠ .error .readOnlyTarget ∧
    (PyArray_AssignArray env dst src wheremask casting preservena preservewhichna).events
      = [] := by
  rw [PyArray_AssignArray]
  simp [hnd, hid]



theorem c3_self_assignment_noop_witness :
    viewSelf.ndim ≠ 0 ∧ identityTest viewSelf viewSelf = true ∧
    ((PyArray_AssignArray envTriv viewSelf viewSelf none .safe_cast false none).ret = .ok () ∧
     (PyArray_AssignArray envTriv viewSelf viewSelf none .safe_cast false none).events = []) :=
  ⟨by decide, by decide,
   c3_self_assignment_noop envTriv viewSelf viewSelf none .safe_cast false none (by decide) (by decide)⟩

theorem c10_self_assignment_skips_writeable_check_witness :
    viewSelf.ndim ≠ 0 ∧ identityTest viewSelf viewSelf = true ∧ viewSelf.writeable = false ∧
    ((PyArray_AssignArray envTriv viewSelf viewSelf none .safe_cast true none).ret = .ok () ∧
     (PyArray_AssignArray envTriv viewSelf viewSelf none .safe_cast true none).ret
       ≠ .error .readOnlyTarget ∧
     (PyArray_AssignArray envTriv viewSelf viewSelf none .safe_cast true none).events = []) :=
  ⟨by decide, by decide, by decide,
   c10_self_assignment_skips_writeable_check envTriv viewSelf viewSelf none .safe_cast true none (by decide) (by decide) (by decide)⟩

/-- C7 counterexample.  The claim says any call with a non-NULL
`preservewhichna` fails immediately with NotImplemented before any other
processing; but the redundant-self-assignment short-circuit runs first
(lines 438-450 precede line 477), so a self-assignment call with
`preservewhichna = some [true]` returns success. -/
theorem c7_counterexample :
    (some [true] : Option (List Bool)) ≠ none ∧
    (PyArray_AssignArray envTriv viewSelf viewSelf none .safe_cast false (some [true])).ret
      = .ok () ∧
    (PyArray_AssignArray envTriv viewSelf viewSelf none .safe_cast false (some [true])).ret
      ≠ .error .notImplementedMultiNA := by
  refine ⟨by decide, by decide, by decide⟩

/-- C7 (amended).  Provided the source is not 0-dimensional, the call is not a
redundant self-assignment, the destination is writeable and the casting rule
admits the conversion, a non-NULL `preservewhichna` makes
`PyArray_AssignArray` fail with the NotImplemented error before any NA
scanning, overlap resolution, broadcasting or transfer (the event trace is
empty). -/
theorem c7_whichna_rejected_after_early_gates (env : Env) (dst src : ArrayView) (wheremask : Option ArrayView)
    (casting : NpyCasting) (preservena : Bool) (preservewhichna : Option (List Bool))
    (hnd : src.ndim ≠ 0) (hid : identityTest dst src = false)
    (hw : dst.writeable = true) (hc : env.canCast src.descr dst.descr casting = true)
    (hna : preservewhichna.isSome = true) :
    (PyArray_AssignArray env dst src wheremask casting preservena preservewhichna).ret
      = .error .notImplementedMultiNA ∧
    (PyArray_AssignArray env dst src wheremask casting preservena preservewhichna).events
      = [] := by
  rw [PyArray_AssignArray]
  simp [hnd, hid, hw, hc, hna]



theorem c7_whichna_rejected_after_early_gates_witness :
    srcPlain.ndim ≠ 0 ∧ identityTest dstPlain srcPlain = false ∧
    dstPlain.writeable = true ∧
    envTriv.canCast srcPlain.descr dstPlain.descr .safe_cast = true ∧
    (some [false] : Option (List Bool)).isSome = true ∧
    ((PyArray_AssignArray envTriv dstPlain srcPlain none .safe_cast false (some [false])).ret
       = .error .notImplementedMultiNA ∧
     (PyArray_AssignArray envTriv dstPlain srcPlain none .safe_cast false (some [false])).events
       = []) :=
  ⟨by decide, by decide, by decide, by decide, by decide,
   c7_whichna_rejected_after_early_gates envTriv dstPlain srcPlain none .safe_cast false (some [false])
     (by decide) (by decide) (by decide) (by decide) (by decide)⟩






/-- C6 counterexample.  The claim says the NA scan is restricted by no
where-mask; but line 484 passes the call's where-mask to
`PyArray_ContainsNA`.  With a source whose only NA element sits at a
where-mask-false position, a destination without NA support, and the
spec-modelled scan over concrete memory, the call succeeds instead of
failing with UnsupportedNA, even though the source does contain an NA
element (`modelContainsNA memC6 srcC6 none = some true`); the event trace
shows the scan received the where-mask. -/
theorem c6_counterexample :
    srcC6.has_maskna = true ∧ dstC6.has_maskna = false ∧
    modelContainsNA memC6 srcC6 none = some true ∧
    (PyArray_AssignArray envC6 dstC6 srcC6 (some wmC6) .safe_cast false none).ret = .ok () ∧
    (PyArray_AssignArray envC6 dstC6 srcC6 (some wmC6) .safe_cast false none).ret
      ≠ .error .unsupportedNA ∧
    AssignEvent.naScan (some wmC6)
      ∈ (PyArray_AssignArray envC6 dstC6 srcC6 (some wmC6) .safe_cast false none).events := by
  refine ⟨by decide, by decide, by decide, by decide, by decide, by decide⟩

/-- C6 (amended).  When the source carries an NA mask and the destination has
no NA support, `PyArray_AssignArray` runs the NA scan restricted by the
call's where-mask (the scan event records exactly that where-mask), and
fails with UnsupportedNA exactly when the restricted scan reports an NA. -/
theorem c6_na_scan_wheremask_restricted (env : Env) (dst src : ArrayView) (wheremask : Option ArrayView)
    (casting : NpyCasting) (preservena : Bool)
    (hnd : src.ndim ≠ 0) (hid : identityTest dst src = false)
    (hw : dst.writeable = true) (hc : env.canCast src.descr dst.descr casting = true)
    (hsm : src.has_maskna = true) (hdm : dst.has_maskna = false)
    (hscan : env.containsNA src wheremask = some true) :
    (PyArray_AssignArray env dst src wheremask casting preservena none).ret
      = .error .unsupportedNA ∧
    (PyArray_AssignArray env dst src wheremask casting preservena none).events
      = [AssignEvent.naScan wheremask] := by
  rw [PyArray_AssignArray]
  simp [hnd, hid, hw, hc, hsm, hdm, hscan]



theorem c6_na_scan_wheremask_restricted_witness :
    srcC6.ndim ≠ 0 ∧ identityTest dstC6 srcC6 = false ∧ dstC6.writeable = true ∧
    envC6b.canCast srcC6.descr dstC6.descr .safe_cast = true ∧
    srcC6.has_maskna = true ∧ dstC6.has_maskna = false ∧
    envC6b.containsNA srcC6 (some wmC6) = some true ∧
    ((PyArray_AssignArray envC6b dstC6 srcC6 (some wmC6) .safe_cast false none).ret
       = .error .unsupportedNA ∧
     (PyArray_AssignArray envC6b dstC6 srcC6 (some wmC6) .safe_cast false none).events
       = [AssignEvent.naScan (some wmC6)]) :=
  ⟨by decide, by decide, by decide, by decide, by decide, by decide, by decide,
   c6_na_scan_wheremask_restricted envC6b dstC6 srcC6 (some wmC6) .safe_cast false
     (by decide) (by decide) (by decide) (by decide) (by decide) (by decide) (by decide)⟩

/-- C2.  When source and destination memory footprints overlap and either the
destination has two or more dimensions or the 1-D innermost strides of
destination and source are opposite-signed, `PyArray_AssignArray` (past its
early gates, with a successful temporary allocation) allocates a temporary
array, gives it an NA mask when the source has one, recursively assigns the
source into it unmasked with unrestricted (`NPY_UNSAFE_CASTING`) casting and
`preservena = 0`, substitutes the temporary for the source for the remainder
of the call, and releases the temporary before returning on every path:
the release event is in the trace regardless of the success or failure of
any later stage. -/
theorem c2_overlap_temp_copy (env : Env) (dst src : ArrayView) (wheremask : Option ArrayView)
    (casting : NpyCasting) (preservena : Bool) (tmp0 : ArrayView)
    (hnd : src.ndim ≠ 0) (hid : identityTest dst src = false)
    (hw : dst.writeable = true) (hc : env.canCast src.descr dst.descr casting = true)
    (hscan : src.has_maskna = true → dst.has_maskna = false →
      env.containsNA src wheremask = some false)
    (hcond : (dst.ndim = 1 ∧ 1 ≤ src.ndim ∧
      dst.strides.getD 0 0 * src.strides.getD (src.ndim - 1) 0 < 0) ∨ 1 < dst.ndim)
    (hov : env.arraysOverlap src dst = true)
    (hnew : env.newLike dst = some tmp0) :
    AssignEvent.tempAlloc tmp0
      ∈ (PyArray_AssignArray env dst src wheremask casting preservena none).events ∧
    (src.has_maskna = true → AssignEvent.tempMaskAlloc tmp0.data
      ∈ (PyArray_AssignArray env dst src wheremask casting preservena none).events) ∧
    AssignEvent.tempRelease tmp0.data
      ∈ (PyArray_AssignArray env dst src wheremask casting preservena none).events ∧
    ((src.has_maskna = true → env.allocMaskNAOk = true) →
      AssignEvent.recursiveAssign
          (if src.has_maskna then { tmp0 with has_maskna := true } else tmp0)
          src none .force_cast false none
        ∈ (PyArray_AssignArray env dst src wheremask casting preservena none).events) ∧
    ((src.has_maskna = true → env.allocMaskNAOk = true) → env.recursiveAssignOk = true →
      (PyArray_AssignArray env dst src wheremask casting preservena none).usedSrc
        = some (if src.has_maskna then { tmp0 with has_maskna := true } else tmp0)) := by
  rw [PyArray_AssignArray]
  simp only [List.getD_eq_getElem?_getD] at hcond
  by_cases hsm : src.has_maskna = true
  · by_cases hdm : dst.has_maskna = true
    · by_cases hal : env.allocMaskNAOk = true
      · by_cases hrec : env.recursiveAssignOk = true
        · simp [hnd, hid, hw, hc, hsm, hdm, hal, hrec, hcond, hov, hnew]
        · simp [hnd, hid, hw, hc, hsm, hdm, hal, hrec, hcond, hov, hnew]
      · simp [hnd, hid, hw, hc, hsm, hdm, hal, hcond, hov, hnew]
    · have hdm' : dst.has_maskna = false := by simpa using hdm
      have hs := hscan hsm hdm'
      by_cases hal : env.allocMaskNAOk = true
      · by_cases hrec : env.recursiveAssignOk = true
        · simp [hnd, hid, hw, hc, hsm, hdm', hal, hrec, hcond, hov, hnew, hs]
        · simp [hnd, hid, hw, hc, hsm, hdm', hal, hrec, hcond, hov, hnew, hs]
      · simp [hnd, hid, hw, hc, hsm, hdm', hal, hcond, hov, hnew, hs]
  · have hsm' : src.has_maskna = false := by simpa using hsm
    by_cases hdm : dst.has_maskna = true
    · by_cases hrec : env.recursiveAssignOk = true
      · simp [hnd, hid, hw, hc, hsm', hdm, hrec, hcond, hov, hnew]
      · simp [hnd, hid, hw, hc, hsm', hdm, hrec, hcond, hov, hnew]
    · have hdm' : dst.has_maskna = false := by simpa using hdm
      by_cases hrec : env.recursiveAssignOk = true
      · simp [hnd, hid, hw, hc, hsm', hdm', hrec, hcond, hov, hnew]
      · simp [hnd, hid, hw, hc, hsm', hdm', hrec, hcond, hov, hnew]





theorem c2_overlap_temp_copy_witness :
    srcC2.ndim ≠ 0 ∧ identityTest dstC2 srcC2 = false ∧ dstC2.writeable = true ∧
    envC2.canCast srcC2.descr dstC2.descr .safe_cast = true ∧
    (srcC2.has_maskna = true → dstC2.has_maskna = false →
      envC2.containsNA srcC2 none = some false) ∧
    ((dstC2.ndim = 1 ∧ 1 ≤ srcC2.ndim ∧
      dstC2.strides.getD 0 0 * srcC2.strides.getD (srcC2.ndim - 1) 0 < 0) ∨ 1 < dstC2.ndim) ∧
    envC2.arraysOverlap srcC2 dstC2 = true ∧
    envC2.newLike dstC2 = some tmpC2 ∧
    (AssignEvent.tempAlloc tmpC2
      ∈ (PyArray_AssignArray envC2 dstC2 srcC2 none .safe_cast false none).events ∧
    (srcC2.has_maskna = true → AssignEvent.tempMaskAlloc tmpC2.data
      ∈ (PyArray_AssignArray envC2 dstC2 srcC2 none .safe_cast false none).events) ∧
    AssignEvent.tempRelease tmpC2.data
      ∈ (PyArray_AssignArray envC2 dstC2 srcC2 none .safe_cast false none).events ∧
    ((srcC2.has_maskna = true → envC2.allocMaskNAOk = true) →
      AssignEvent.recursiveAssign
          (if srcC2.has_maskna then { tmpC2 with has_maskna := true } else tmpC2)
          srcC2 none .force_cast false none
        ∈ (PyArray_AssignArray envC2 dstC2 srcC2 none .safe_cast false none).events) ∧
    ((srcC2.has_maskna = true → envC2.allocMaskNAOk = true) →
      envC2.recursiveAssignOk = true →
      (PyArray_AssignArray envC2 dstC2 srcC2 none .safe_cast false none).usedSrc
        = some (if srcC2.has_maskna then { tmpC2 with has_maskna := true } else tmpC2))) :=
  ⟨by decide, by decide, by decide, by decide, by decide, by decide, by decide, by decide,
   c2_overlap_temp_copy envC2 dstC2 srcC2 none .safe_cast false tmpC2
     (by decide) (by decide) (by decide) (by decide) (by decide) (by decide)
     (by decide) (by decide)⟩

/-- Complement to the failing input of C1: on the same memory with equal
strides (destination base 1, source base 0, both stride 1, 5 elements — the
`dst[1:] = dst[:-1]` pattern the reversal was written for), the embedded
routine produces exactly the pre-assignment source values, so the corruption
is isolated to unequal same-signed strides. -/
theorem raw_assign_equal_stride_overlap_ok :
    ((raw_array_assign_array idCast 1 [5] 1 [1] 0 [1] memC1).1) 1 = 0 ∧
    ((raw_array_assign_array idCast 1 [5] 1 [1] 0 [1] memC1).1) 2 = 1 ∧
    ((raw_array_assign_array idCast 1 [5] 1 [1] 0 [1] memC1).1) 3 = 2 ∧
    ((raw_array_assign_array idCast 1 [5] 1 [1] 0 [1] memC1).1) 4 = 3 ∧
    ((raw_array_assign_array idCast 1 [5] 1 [1] 0 [1] memC1).1) 5 = 4 := by
  refine ⟨by decide, by decide, by decide, by decide, by decide⟩

/-- Complement to the failing input of C8: on the analogous 1-D reversing
call, the where-masked routine (lines 174-181) hands the resolver the same
post-reversal source stride its loop uses, unlike the preserve-NA routine. -/
theorem raw_wheremasked_resolver_stride_consistent :
    (raw_array_wheremasked_assign_array idCast 1 [4] 3 [1] 0 [2] 200 [1] memC1).2.resolverSrcStride
      = (raw_array_wheremasked_assign_array idCast 1 [4] 3 [1] 0 [2] 200 [1] memC1).2.loopSrcStride ∧
    (raw_array_wheremasked_assign_array idCast 1 [4] 3 [1] 0 [2] 200 [1] memC1).2.loopSrcStride
      = -2 := by
  refine ⟨by decide, by decide⟩
